import Mathlib

/-!
Verification development for the agora-scan repository.

The development shallowly embeds the two source files of the repository:

* the eth1 deposit exporter (package `exporter`): range selection of the
  scan loop (`eth1DepositsExporter`), deposit log decoding and signature
  flagging (`fetchEth1Deposits`), the batched header/transaction fetch
  (`eth1BatchRequestHeadersAndTxs`), and the transactional upsert
  persistence (`saveEth1Deposits`);
* the Prysm consensus client (package `rpc`, file `prysm.go`): the epoch
  assignment cache (`GetEpochAssignments`) and the four-way block
  normalization (`parseRpcBlock` and the per-revision parse functions).

Go `uint64` values are modelled as `Nat`; where overflow or underflow of
Go arithmetic matters (the block-range computation) the wrap at `2 ^ 64`
is made explicit.  External collaborators (the geth RPC client, the
Prysm BLS-verification and log-unpacking helpers, the configured chain
parameters) are passed in as explicit oracle parameters, so every
definition stays executable.  Go maps are modelled as association lists
with overwrite-on-insert semantics, and Go `error` values as
`Option String` / `Except String`.
-/

namespace AgoraScan

/-- A byte string (each entry is one byte value). -/
abbrev Bytes := List Nat

/-- Lookup in an association-list model of a Go map (first binding wins;
the builders below never create duplicate keys for the same map). -/
def mapLookup {α β : Type} [DecidableEq α] : List (α × β) → α → Option β
  | [], _ => none
  | (k, v) :: rest, a => if k = a then some v else mapLookup rest a

/-- Insert into an association-list model of a Go map: overwrite the
binding if the key is present, append otherwise. -/
def mapInsert {α β : Type} [DecidableEq α] : List (α × β) → α → β → List (α × β)
  | [], a, b => [(a, b)]
  | (k, v) :: rest, a, b => if k = a then (a, b) :: rest else (k, v) :: mapInsert rest a b

/-- Map a fallible transformation over a list, aborting at the first
error — the shape of every `for ... return err` loop in the source. -/
def listMapE {α β : Type} (f : α → Except String β) : List α → Except String (List β)
  | [] => .ok []
  | a :: rest =>
    match f a with
    | .error e => .error e
    | .ok b =>
      match listMapE f rest with
      | .error e => .error e
      | .ok bs => .ok (b :: bs)

/-- The modulus of Go `uint64` arithmetic. -/
def two64 : Nat := 2 ^ 64

/-- Go `uint64` subtraction `a - b` (wrapping), for `a b < two64`. -/
def sub64 (a b : Nat) : Nat := (a + two64 - b) % two64

/-- Little-endian 64-bit read, as done by `binary.LittleEndian.Uint64`
and prysm's `bytesutil.FromBytes8` (missing bytes read as zero). -/
def littleEndianU64 (bs : Bytes) : Nat :=
  (List.range 8).foldl (fun acc i => acc + (bs.get? i).getD 0 * 256 ^ i) 0

/-! ## Deposit range scanner (`eth1DepositsExporter`, part_000 lines 76-97) -/

/-- `var eth1LookBack = uint64(100)`. -/
def eth1LookBack : Nat := 100

/-- `var eth1MaxFetch = uint64(1000)`. -/
def eth1MaxFetch : Nat := 1000

/-- The block-range selection of one iteration of `eth1DepositsExporter`
(part_000 lines 76-97), with Go `uint64` wrap-around made explicit:
start after the last persisted deposit block, clamp up to the contract's
first block and past the last fetched block, cap the span at 1000 blocks
when catching up, never pass the chain head, and widen backwards to a
100-block look-back window when close to the head. -/
def eth1ScanRange (lastDepositBlock lastFetchedBlock contractFirstBlock blockHeight : Nat) :
    Nat × Nat :=
  let fromBlock := (lastDepositBlock + 1) % two64
  let toBlock := blockHeight
  let fromBlock := if fromBlock < contractFirstBlock then contractFirstBlock else fromBlock
  let fromBlock :=
    if fromBlock < (lastFetchedBlock + 1) % two64 then (lastFetchedBlock + 1) % two64
    else fromBlock
  let toBlock := if sub64 toBlock fromBlock > eth1MaxFetch then (fromBlock + 1000) % two64 else toBlock
  let toBlock := if toBlock > blockHeight then blockHeight else toBlock
  let fromBlock :=
    if sub64 toBlock fromBlock < eth1LookBack ∧ toBlock > eth1LookBack then sub64 toBlock eth1LookBack
    else fromBlock
  (fromBlock, toBlock)

/-- Characterization of `eth1ScanRange` in the synced regime (the scan
start `f0` does not pass the head and the head is far from the `uint64`
wrap): the range is `[f0, f0 + 1000]` while catching up, and otherwise
reaches the head, widened backwards to 100 blocks when close to it. -/
theorem eth1ScanRange_eq (lp lf cf h f0 : Nat)
    (hf0 : f0 = max (max (lp + 1) (lf + 1)) cf)
    (hsync : f0 ≤ h) (hbound : h + 1001 < two64) :
    eth1ScanRange lp lf cf h =
      if h - f0 > 1000 then (f0, f0 + 1000)
      else if h - f0 < 100 ∧ h > 100 then (h - 100, h)
      else (f0, h) := by
  have h64 : two64 = 18446744073709551616 := by norm_num [two64]
  have hlp : lp + 1 ≤ f0 := hf0 ▸ le_trans (le_max_left _ _) (le_max_left _ _)
  have hlf : lf + 1 ≤ f0 := hf0 ▸ le_trans (le_max_right _ _) (le_max_left _ _)
  have hcf : cf ≤ f0 := hf0 ▸ le_max_right _ _
  simp only [eth1ScanRange, eth1MaxFetch, eth1LookBack, h64]
  rw [Nat.mod_eq_of_lt (a := lp + 1) (by omega), Nat.mod_eq_of_lt (a := lf + 1) (by omega)]
  have hfrom :
      (if (if lp + 1 < cf then cf else lp + 1) < lf + 1 then lf + 1
       else if lp + 1 < cf then cf else lp + 1) = f0 := by
    rw [hf0]
    simp only [Nat.max_def]
    split_ifs <;> omega
  rw [hfrom]
  have hs1 : sub64 h f0 = h - f0 := by simp only [sub64, h64]; omega
  rw [hs1]
  by_cases hgap : h - f0 > 1000
  · rw [if_pos hgap, if_pos hgap]
    rw [Nat.mod_eq_of_lt (a := f0 + 1000) (by omega)]
    rw [if_neg (by omega : ¬ f0 + 1000 > h)]
    have hs2 : sub64 (f0 + 1000) f0 = 1000 := by simp only [sub64, h64]; omega
    rw [hs2]
    rw [if_neg (by omega : ¬ (1000 < 100 ∧ f0 + 1000 > 100))]
  · rw [if_neg hgap, if_neg hgap]
    rw [if_neg (by omega : ¬ h > h)]
    rw [hs1]
    by_cases hnear : h - f0 < 100 ∧ h > 100
    · rw [if_pos hnear, if_pos hnear]
      have hs3 : sub64 h 100 = h - 100 := by simp only [sub64, h64]; omega
      rw [hs3]
    · rw [if_neg hnear, if_neg hnear]

/-- C2: one scanner iteration starts at
`fromBlock = max(lastPersisted+1, lastFetched+1, contractFirstBlock)`,
caps `toBlock` at `fromBlock + 1000` when the head is more than 1000
blocks away, never lets `toBlock` exceed the head, and moves `fromBlock`
back to `toBlock - 100` when `toBlock - fromBlock < 100` and
`toBlock > 100`; in particular `(500, 500, 100, 2000)` scans
`[501, 1501]` and `(548, 548, 100, 550)` scans `[450, 550]`. -/
theorem eth1ScanRange_selection (lp lf cf h f0 : Nat)
    (hf0 : f0 = max (max (lp + 1) (lf + 1)) cf)
    (hsync : f0 ≤ h) (hbound : h + 1001 < two64) :
    (eth1ScanRange lp lf cf h).2 ≤ h
    ∧ (h - f0 > 1000 → eth1ScanRange lp lf cf h = (f0, f0 + 1000))
    ∧ (h - f0 ≤ 1000 →
        (eth1ScanRange lp lf cf h).2 = h ∧
        (eth1ScanRange lp lf cf h).1 =
          if h - f0 < 100 ∧ h > 100 then h - 100 else f0)
    ∧ eth1ScanRange 500 500 100 2000 = (501, 1501)
    ∧ eth1ScanRange 548 548 100 550 = (450, 550) := by
  rw [eth1ScanRange_eq lp lf cf h f0 hf0 hsync hbound]
  refine ⟨?_, ?_, ?_, by decide, by decide⟩
  · split_ifs <;> dsimp only <;> omega
  · intro hgap
    rw [if_pos hgap]
  · intro hgap
    rw [if_neg (by omega : ¬ h - f0 > 1000)]
    by_cases hnear : h - f0 < 100 ∧ h > 100
    · rw [if_pos hnear, if_pos hnear]
      exact ⟨rfl, rfl⟩
    · rw [if_neg hnear, if_neg hnear]
      exact ⟨rfl, rfl⟩

/-- Witness for C2 at the claim's catching-up example. -/
theorem eth1ScanRange_selection_witness :
    (501 : Nat) = max (max (500 + 1) (500 + 1)) 100 ∧ (501 : Nat) ≤ 2000 ∧
      (2000 : Nat) + 1001 < two64 ∧ eth1ScanRange 500 500 100 2000 = (501, 1501) :=
  ⟨by decide, by decide, by decide,
    (eth1ScanRange_selection 500 500 100 2000 501 (by decide) (by decide) (by decide)).2.2.2.1⟩

/-! ## Deposit rows and persistence (`saveEth1Deposits`, part_000 lines 269-324) -/

/-- The deposit record `types.Eth1Deposit`, with exactly the columns the
insert statement persists. -/
structure Eth1Deposit where
  txHash : Bytes
  txInput : Bytes
  txIndex : Nat
  blockNumber : Nat
  blockTs : Int
  fromAddress : Bytes
  publicKey : Bytes
  withdrawalCredentials : Bytes
  amount : Nat
  signature : Bytes
  merkletreeIndex : Bytes
  removed : Bool
  validSignature : Bool
deriving DecidableEq, Repr

/-- The conflict key of the upsert: `(tx_hash, merkletree_index)`. -/
def depositKey (d : Eth1Deposit) : Bytes × Bytes := (d.txHash, d.merkletreeIndex)

/-- One execution of the prepared insert statement against a table state:
`INSERT ... ON CONFLICT (tx_hash, merkletree_index) DO UPDATE SET` every
mutable column to the excluded (new) row, i.e. replace the conflicting
row wholesale, or append a fresh row. -/
def upsertEth1Deposit : List Eth1Deposit → Eth1Deposit → List Eth1Deposit
  | [], d => [d]
  | r :: rs, d => if depositKey r = depositKey d then d :: rs else r :: upsertEth1Deposit rs d

/-- Look up the stored row under a conflict key (unique in any table
reachable by upserts from a duplicate-free state). -/
def lookupDeposit : List Eth1Deposit → Bytes × Bytes → Option Eth1Deposit
  | [], _ => none
  | r :: rs, k => if depositKey r = k then some r else lookupDeposit rs k

/-- The insert loop of `saveEth1Deposits` running inside the open
transaction: each row is written with the upsert statement into the
transaction-local view, aborting at the first failing execution
(`execErr` is the outcome of `insertDepositStmt.Exec` for a row). -/
def saveEth1DepositsLoop (execErr : Eth1Deposit → Option String) :
    List Eth1Deposit → List Eth1Deposit → Except String (List Eth1Deposit)
  | working, [] => .ok working
  | working, d :: rest =>
    match execErr d with
    | some e => .error ("error saving eth1-deposit to db: " ++ e)
    | none => saveEth1DepositsLoop execErr (upsertEth1Deposit working d) rest

/-- `saveEth1Deposits`: open one local transaction, prepare the upsert
statement, execute it per deposit, and commit; the deferred rollback
discards the transaction-local writes on every error path (begin,
prepare, any single insert, or commit), leaving the store unchanged.
Returns the error result together with the store after the call. -/
def saveEth1Deposits (beginErr prepErr commitErr : Option String)
    (execErr : Eth1Deposit → Option String)
    (store : List Eth1Deposit) (depositsToSave : List Eth1Deposit) :
    Except String Unit × List Eth1Deposit :=
  match beginErr with
  | some e => (.error e, store)
  | none =>
    match prepErr with
    | some e => (.error e, store)
    | none =>
      match saveEth1DepositsLoop execErr store depositsToSave with
      | .error e => (.error e, store)
      | .ok working =>
        match commitErr with
        | some e => (.error ("error commiting db-tx for eth1-deposits: " ++ e), store)
        | none => (.ok (), working)

/-- Upserting the same row twice is the same as upserting it once. -/
theorem upsertEth1Deposit_idem (s : List Eth1Deposit) (d : Eth1Deposit) :
    upsertEth1Deposit (upsertEth1Deposit s d) d = upsertEth1Deposit s d := by
  induction s with
  | nil => simp [upsertEth1Deposit]
  | cons r rs ih =>
    by_cases hk : depositKey r = depositKey d
    · simp [upsertEth1Deposit, hk]
    · simp [upsertEth1Deposit, hk, ih]

/-- Iterating the upsert of a fixed row on top of one upsert changes nothing. -/
theorem upsertEth1Deposit_iterate (d : Eth1Deposit) (k : Nat) (s : List Eth1Deposit) :
    (fun t => upsertEth1Deposit t d)^[k] (upsertEth1Deposit s d) = upsertEth1Deposit s d := by
  induction k generalizing s with
  | zero => rfl
  | succ k ih =>
    rw [Function.iterate_succ_apply, upsertEth1Deposit_idem]
    exact ih s

/-- The upsert stores exactly the new payload under its key. -/
theorem lookupDeposit_upsert (s : List Eth1Deposit) (d : Eth1Deposit) :
    lookupDeposit (upsertEth1Deposit s d) (depositKey d) = some d := by
  induction s with
  | nil => simp [upsertEth1Deposit, lookupDeposit]
  | cons r rs ih =>
    by_cases hk : depositKey r = depositKey d
    · simp [upsertEth1Deposit, hk, lookupDeposit]
    · simp [upsertEth1Deposit, hk, lookupDeposit, ih]

/-- C3: deposit persistence is idempotent per key: executing the upsert
`n ≥ 1` times with the same payload leaves the table equal to the table
after one upsert, and re-persisting the same key with a changed payload
overwrites all mutable columns of the existing row (the stored row under
the key becomes exactly the new payload). -/
theorem saveEth1Deposits_upsert_idempotent (s : List Eth1Deposit) (d d2 : Eth1Deposit)
    (n : Nat) (hn : 1 ≤ n) (hkey : depositKey d2 = depositKey d) :
    (fun t => upsertEth1Deposit t d)^[n] s = upsertEth1Deposit s d
    ∧ lookupDeposit (upsertEth1Deposit (upsertEth1Deposit s d) d2) (depositKey d) = some d2 := by
  constructor
  · obtain ⟨k, rfl⟩ : ∃ k, n = k + 1 := ⟨n - 1, by omega⟩
    rw [Function.iterate_succ_apply]
    exact upsertEth1Deposit_iterate d k s
  · exact hkey ▸ lookupDeposit_upsert _ d2

/-- A sample deposit row (valid signature, not removed). -/
def sampleDepositA : Eth1Deposit :=
  ⟨[1], [], 0, 7, 0, [2], [3], [4], 32, [5], [0], false, true⟩

/-- The same logical deposit re-observed after a reorg: same key
`(tx_hash, merkletree_index)`, changed mutable columns. -/
def sampleDepositB : Eth1Deposit :=
  ⟨[1], [], 0, 9, 1, [2], [3], [4], 32, [5], [0], true, true⟩

/-- Witness for C3 on an empty table, three repeated upserts, and an
overwrite that flips the removed flag of the stored row. -/
theorem saveEth1Deposits_upsert_idempotent_witness :
    (1 : Nat) ≤ 3 ∧ depositKey sampleDepositB = depositKey sampleDepositA ∧
      ((fun t => upsertEth1Deposit t sampleDepositA)^[3] [] =
          upsertEth1Deposit [] sampleDepositA
        ∧ lookupDeposit (upsertEth1Deposit (upsertEth1Deposit [] sampleDepositA) sampleDepositB)
            (depositKey sampleDepositA) = some sampleDepositB) :=
  ⟨by decide, by decide,
    saveEth1Deposits_upsert_idempotent [] sampleDepositA sampleDepositB 3 (by decide) (by decide)⟩

/-- If every insert succeeds, the loop applies every upsert in order. -/
theorem saveEth1DepositsLoop_ok (execErr : Eth1Deposit → Option String)
    (ds : List Eth1Deposit) (hall : ∀ d ∈ ds, execErr d = none) (w : List Eth1Deposit) :
    saveEth1DepositsLoop execErr w ds = .ok (ds.foldl upsertEth1Deposit w) := by
  induction ds generalizing w with
  | nil => rfl
  | cons d rest ih =>
    have hd : execErr d = none := hall d (List.mem_cons_self _ _)
    simp only [saveEth1DepositsLoop, hd, List.foldl_cons]
    exact ih (fun x hx => hall x (List.mem_cons_of_mem _ hx)) _

/-- If some insert fails, the loop returns an error. -/
theorem saveEth1DepositsLoop_err (execErr : Eth1Deposit → Option String)
    (ds : List Eth1Deposit) (hex : ∃ d ∈ ds, execErr d ≠ none) (w : List Eth1Deposit) :
    ∃ e, saveEth1DepositsLoop execErr w ds = .error e := by
  induction ds generalizing w with
  | nil => simp at hex
  | cons d rest ih =>
    match hd : execErr d with
    | some e => exact ⟨"error saving eth1-deposit to db: " ++ e, by
        simp [saveEth1DepositsLoop, hd]⟩
    | none =>
      obtain ⟨x, hx, hxe⟩ := hex
      rcases List.mem_cons.mp hx with rfl | hx
      · exact absurd hd hxe
      · simpa [saveEth1DepositsLoop, hd] using ih ⟨x, hx, hxe⟩ _

/-- C4: `saveEth1Deposits` is all-or-nothing per batch: every error path
(begin, prepare, any single insert, commit) returns the error and leaves
the store unchanged; a failing insert always yields an error; and only a
fully successful run commits, applying every upsert of the batch. -/
theorem saveEth1Deposits_atomic (beginErr prepErr commitErr : Option String)
    (execErr : Eth1Deposit → Option String)
    (store ds : List Eth1Deposit) :
    (∀ e, (saveEth1Deposits beginErr prepErr commitErr execErr store ds).1 = .error e →
      (saveEth1Deposits beginErr prepErr commitErr execErr store ds).2 = store)
    ∧ (beginErr = none → prepErr = none → (∃ d ∈ ds, execErr d ≠ none) →
        ∃ e, (saveEth1Deposits beginErr prepErr commitErr execErr store ds).1 = .error e)
    ∧ ((saveEth1Deposits beginErr prepErr commitErr execErr store ds).1 = .ok () →
        (saveEth1Deposits beginErr prepErr commitErr execErr store ds).2 =
          ds.foldl upsertEth1Deposit store) := by
  refine ⟨?_, ?_, ?_⟩
  · intro e he
    cases beginErr with
    | some b => rfl
    | none =>
      cases prepErr with
      | some p => rfl
      | none =>
        simp only [saveEth1Deposits] at he ⊢
        cases hl : saveEth1DepositsLoop execErr store ds with
        | error l => simp [hl]
        | ok w =>
          cases commitErr with
          | some c => simp [hl]
          | none => simp [hl] at he
  · intro hb hp hex
    subst hb; subst hp
    obtain ⟨e, he⟩ := saveEth1DepositsLoop_err execErr ds hex store
    exact ⟨e, by simp [saveEth1Deposits, he]⟩
  · intro hok
    cases beginErr with
    | some b => simp [saveEth1Deposits] at hok
    | none =>
      cases prepErr with
      | some p => simp [saveEth1Deposits] at hok
      | none =>
        simp only [saveEth1Deposits] at hok ⊢
        cases hl : saveEth1DepositsLoop execErr store ds with
        | error l => simp [hl] at hok
        | ok w =>
          cases commitErr with
          | some c => simp [hl] at hok
          | none =>
            have := saveEth1DepositsLoop_ok execErr ds ?_ store
            · simp only [hl] at this
              simp [hl, Except.ok.injEq] at this ⊢
              exact this
            · intro d hd
              by_contra hne
              obtain ⟨e, he⟩ := saveEth1DepositsLoop_err execErr ds ⟨d, hd, hne⟩ store
              rw [he] at hl
              exact Except.noConfusion hl

/-- Witness for C4: a single failing insert makes the call error out and
leaves the one-row store unchanged. -/
theorem saveEth1Deposits_atomic_witness :
    (∃ d ∈ [sampleDepositA], (fun _ : Eth1Deposit => some "duplicate") d ≠ none)
    ∧ (∃ e, (saveEth1Deposits none none none (fun _ => some "duplicate")
        [sampleDepositB] [sampleDepositA]).1 = .error e)
    ∧ (saveEth1Deposits none none none (fun _ => some "duplicate")
        [sampleDepositB] [sampleDepositA]).2 = [sampleDepositB] := by
  have h := saveEth1Deposits_atomic none none none (fun _ => some "duplicate")
    [sampleDepositB] [sampleDepositA]
  have hex : ∃ d ∈ [sampleDepositA], (fun _ : Eth1Deposit => some "duplicate") d ≠ none :=
    ⟨sampleDepositA, by simp⟩
  obtain ⟨e, he⟩ := h.2.1 rfl rfl hex
  exact ⟨hex, ⟨e, he⟩, h.1 e he⟩

/-! ## Batched enrichment fetch (`eth1BatchRequestHeadersAndTxs`, part_000 lines 329-377) -/

/-- A geth block header, restricted to the field the exporter reads
(`b.Time`).  The zero value is what a `BatchElem.Result` keeps when its
sub-response carried an error. -/
structure Header where
  time : Nat
deriving DecidableEq, Repr

/-- The zero value `&gethTypes.Header{}`. -/
def zeroHeader : Header := ⟨0⟩

instance {ε α : Type} [DecidableEq ε] [DecidableEq α] : DecidableEq (Except ε α) := fun x y =>
  match x, y with
  | .ok a, .ok b =>
    if h : a = b then isTrue (by rw [h]) else isFalse (by intro hh; cases hh; exact h rfl)
  | .error a, .error b =>
    if h : a = b then isTrue (by rw [h]) else isFalse (by intro hh; cases hh; exact h rfl)
  | .ok _, .error _ => isFalse Except.noConfusion
  | .error _, .ok _ => isFalse Except.noConfusion

/-- A geth transaction, restricted to what the exporter reads:
`tx.Data()`, `tx.ChainId()` (nil possible), and the result of sender
recovery through `gethTypes.NewLondonSigner(chainID).Sender(tx)`. -/
structure GethTx where
  txData : Bytes
  chainId : Option Nat
  senderRes : Except String Bytes
deriving DecidableEq, Repr

/-- The zero value `&gethTypes.Transaction{}`: carries no payload, no
chain id, and no recoverable sender. -/
def zeroGethTx : GethTx := ⟨[], none, .error "zero-value transaction"⟩

/-- The behaviour of `eth1RPCClient.BatchCall` for one scan cycle:
either the whole call fails at the transport level, or each sub-request
individually yields a result or a sub-response error. -/
structure BatchOracle where
  transportErr : Option String
  headerErr : Nat → Option String
  headerVal : Nat → Header
  txSubErr : String → Option String
  txVal : String → GethTx

/-- `eth1BatchRequestHeadersAndTxs`: one batched RPC call resolving
block headers by number and transactions by hash into two lookup maps.
The Go code seeds each `BatchElem.Error` and the local `errors` slice
with the same nil interface value `err`; both `append`s copy that value,
so after `BatchCall` has overwritten `elems[i].Error` with the
sub-response errors, the `errors` slice still holds the original nil
copies, and that slice is what the final check loop ranges over.  The
maps alias each `BatchElem.Result`, which holds the decoded value on
success and stays the zero value when the sub-response erred. -/
def eth1BatchRequestHeadersAndTxs (oracle : BatchOracle)
    (blocksToFetch : List Nat) (txsToFetch : List String) :
    Except String (List (Nat × Header) × List (String × GethTx)) :=
  let errs : List (Option String) :=
    blocksToFetch.map (fun _ => none) ++ txsToFetch.map (fun _ => none)
  if blocksToFetch.length + txsToFetch.length = 0 then .ok ([], [])
  else
    match oracle.transportErr with
    | some ioErr => .error ioErr
    | none =>
      let headers := blocksToFetch.map (fun b =>
        (b, match oracle.headerErr b with
            | none => oracle.headerVal b
            | some _ => zeroHeader))
      let txs := txsToFetch.map (fun h =>
        (h, match oracle.txSubErr h with
            | none => oracle.txVal h
            | some _ => zeroGethTx))
      match errs.findSome? id with
      | some e => .error e
      | none => .ok (headers, txs)

/-- An oracle whose transport succeeds but whose only header
sub-response carries an error. -/
def subErrOracle : BatchOracle :=
  ⟨none, fun _ => some "block not found", fun _ => ⟨1234⟩, fun _ => none, fun _ => zeroGethTx⟩

/-- An oracle whose batch call fails at the transport level. -/
def transportFailOracle : BatchOracle :=
  ⟨some "connection refused", fun _ => none, fun _ => ⟨1234⟩, fun _ => none, fun _ => zeroGethTx⟩

/-- C1 (code bug): a transport-level `BatchCall` failure does abort the
whole fetch with that error, but an individual sub-response error is
silently ignored: the fetch still returns `ok`, with the zero-value
header standing in for the failed sub-request, because the error-check
loop ranges over a slice of stale nil copies of each `BatchElem.Error`. -/
theorem eth1BatchRequest_subError_ignored :
    subErrOracle.headerErr 5 = some "block not found"
    ∧ eth1BatchRequestHeadersAndTxs subErrOracle [5] [] = .ok ([(5, zeroHeader)], [])
    ∧ eth1BatchRequestHeadersAndTxs transportFailOracle [5] [] = .error "connection refused" :=
  ⟨rfl, rfl, rfl⟩

/-! ## Deposit log decoding and enrichment (`fetchEth1Deposits`, part_000 lines 144-267) -/

/-- Lowercase hex digit of a value below 16. -/
def hexDigit (n : Nat) : Char := if n < 10 then Char.ofNat (48 + n) else Char.ofNat (87 + n)

/-- Lowercase `0x`-prefixed hex string of a byte string, as produced both
by `common.Hash.Hex()` (tx hashes collected for the batch request) and by
`fmt.Sprintf("0x%x", d.TxHash)` (the lookup key used when enriching). -/
def bytesToHex (bs : Bytes) : String :=
  bs.foldl (fun s b => s ++ String.mk [hexDigit (b / 16 % 16), hexDigit (b % 16)]) "0x"

/-- An execution-layer log as returned by `eth1Client.FilterLogs`. -/
structure DepositLog where
  topics : List Bytes
  data : Bytes
  blockNumber : Nat
  txHash : Bytes
  txIndex : Nat
  removed : Bool
deriving DecidableEq, Repr

/-- The `ethpb.Deposit_Data` message handed to `deposit.VerifyDepositSignature`. -/
structure DepositData where
  publicKey : Bytes
  withdrawalCredentials : Bytes
  amount : Nat
  signature : Bytes
deriving DecidableEq, Repr

/-- The configured chain parameters and the external prysm/geth helpers
used by `fetchEth1Deposits`, passed as oracles: the keccak topic constant
`eth1DepositEventSignature`, `hex.DecodeString` of the configured genesis
fork version, `signing.ComputeDomain`, `deposit.UnpackDepositLogData`,
`deposit.VerifyDepositSignature` (`none` means the signature verifies),
and `eth1Client.FilterLogs` for a block range. -/
structure Eth1Env where
  depositEventSignature : Bytes
  configName : String
  genForkVersionRes : Except String Bytes
  domainDeposit : Bytes
  zeroHash : Bytes
  computeDomain : Bytes → Bytes → Bytes → Except String Bytes
  unpackDepositLogData : Bytes → Except String (Bytes × Bytes × Bytes × Bytes × Bytes)
  verifyDepositSignature : DepositData → Bytes → Option String
  filterLogs : Nat → Nat → Except String (List DepositLog)

/-- The deposit signing domain of `fetchEth1Deposits` (lines 161-202):
computed from the configured deposit domain type, genesis fork version
and zero root, with the hard-coded fork-version overrides for the four
legacy test networks; only the final error value is checked. -/
def computeDepositDomain (env : Eth1Env) : Except String Bytes :=
  match env.genForkVersionRes with
  | .error e => .error e
  | .ok genForkVersion =>
    let base := env.computeDomain env.domainDeposit genForkVersion env.zeroHash
    let d1 := if env.configName = "zinken" then
        env.computeDomain env.domainDeposit [0x00, 0x00, 0x00, 0x03] env.zeroHash else base
    let d2 := if env.configName = "toledo" then
        env.computeDomain env.domainDeposit [0x00, 0x70, 0x1E, 0xD0] env.zeroHash else d1
    let d3 := if env.configName = "pyrmont" then
        env.computeDomain env.domainDeposit [0x00, 0x00, 0x20, 0x09] env.zeroHash else d2
    let d4 := if env.configName = "prater" then
        env.computeDomain env.domainDeposit [0x00, 0x00, 0x10, 0x20] env.zeroHash else d3
    d4

/-- The decoding loop of `fetchEth1Deposits` (lines 204-233): skip logs
whose first topic is not the deposit event signature, unpack the rest
(aborting on a malformed log), verify the BLS signature to set the
`validSignature` flag without ever dropping the deposit, and collect the
block numbers and tx hashes to enrich. -/
def buildDepositsToSave (env : Eth1Env) (domain : Bytes) :
    List DepositLog → Except String (List Eth1Deposit × List Nat × List String)
  | [] => .ok ([], [], [])
  | log :: rest =>
    if (log.topics.get? 0).getD [] = env.depositEventSignature then
      match env.unpackDepositLogData log.data with
      | .error e => .error ("error unpacking eth1-deposit-log: " ++ e)
      | .ok (pubkey, withdrawalCredentials, amountBytes, signature, merkletreeIndex) =>
        match buildDepositsToSave env domain rest with
        | .error e => .error e
        | .ok (ds, bs, ts) =>
          let validSignature := (env.verifyDepositSignature
            ⟨pubkey, withdrawalCredentials, littleEndianU64 amountBytes, signature⟩
            domain).isNone
          .ok (⟨log.txHash, [], log.txIndex, log.blockNumber, 0, [], pubkey,
                withdrawalCredentials, littleEndianU64 amountBytes, signature,
                merkletreeIndex, log.removed, validSignature⟩ :: ds,
               log.blockNumber :: bs, bytesToHex log.txHash :: ts)
    else buildDepositsToSave env domain rest

/-- The enrichment loop of `fetchEth1Deposits` (lines 240-264): fill in
the block timestamp, the transaction input and the recovered sender for
every deposit, aborting if a block or transaction is missing from the
fetched maps, the transaction has no chain id, or sender recovery fails. -/
def enrichDeposits (headers : List (Nat × Header)) (txs : List (String × GethTx)) :
    List Eth1Deposit → Except String (List Eth1Deposit)
  | [] => .ok []
  | d :: rest =>
    match mapLookup headers d.blockNumber with
    | none => .error "error getting block for eth1-deposit: block does not exist in fetched map"
    | some b =>
      match mapLookup txs (bytesToHex d.txHash) with
      | none => .error "error getting tx for eth1-deposit: tx does not exist in fetched map"
      | some tx =>
        match tx.chainId with
        | none => .error "error getting tx-chainId for eth1-deposit"
        | some _ =>
          match tx.senderRes with
          | .error e => .error ("error getting sender for eth1-deposit: " ++ e)
          | .ok sender =>
            match enrichDeposits headers txs rest with
            | .error e => .error e
            | .ok ds =>
              .ok ({ d with
                      blockTs := Int.ofNat b.time
                      txInput := tx.txData
                      fromAddress := sender } :: ds)

/-- `fetchEth1Deposits`: filter the deposit-contract logs of the range,
compute the signing domain, decode and signature-flag each matching log,
batch-fetch the referenced headers and transactions, and enrich every
deposit. -/
def fetchEth1Deposits (env : Eth1Env) (oracle : BatchOracle) (fromBlock toBlock : Nat) :
    Except String (List Eth1Deposit) :=
  match env.filterLogs fromBlock toBlock with
  | .error e => .error ("error getting logs from eth1-client: " ++ e)
  | .ok depositLogs =>
    match computeDepositDomain env with
    | .error e => .error e
    | .ok domain =>
      match buildDepositsToSave env domain depositLogs with
      | .error e => .error e
      | .ok (depositsToSave, blocksToFetch, txsToFetch) =>
        match eth1BatchRequestHeadersAndTxs oracle blocksToFetch txsToFetch with
        | .error e => .error ("error getting eth1-blocks: " ++ e)
        | .ok (headers, txs) => enrichDeposits headers txs depositsToSave

/-- The relation between a persisted deposit row and the matching log it
was decoded from: the unpack succeeded, all decoded fields are recorded
unchanged, and `validSignature` is exactly the outcome of the BLS
verification of the decoded deposit data against the signing domain. -/
def decodedFromLog (env : Eth1Env) (domain : Bytes) (d : Eth1Deposit) (log : DepositLog) : Prop :=
  ∃ pk wc am sg mi, env.unpackDepositLogData log.data = .ok (pk, wc, am, sg, mi)
    ∧ d.publicKey = pk ∧ d.withdrawalCredentials = wc ∧ d.amount = littleEndianU64 am
    ∧ d.signature = sg ∧ d.merkletreeIndex = mi
    ∧ d.txHash = log.txHash ∧ d.txIndex = log.txIndex
    ∧ d.blockNumber = log.blockNumber ∧ d.removed = log.removed
    ∧ d.validSignature = (env.verifyDepositSignature
        ⟨pk, wc, littleEndianU64 am, sg⟩ domain).isNone

/-- Equality on every field of a deposit row that enrichment leaves
untouched (all but `blockTs`, `txInput`, `fromAddress`). -/
def sameDecodedFields (d d0 : Eth1Deposit) : Prop :=
  d.publicKey = d0.publicKey ∧ d.withdrawalCredentials = d0.withdrawalCredentials
    ∧ d.amount = d0.amount ∧ d.signature = d0.signature
    ∧ d.merkletreeIndex = d0.merkletreeIndex ∧ d.txHash = d0.txHash
    ∧ d.txIndex = d0.txIndex ∧ d.blockNumber = d0.blockNumber
    ∧ d.removed = d0.removed ∧ d.validSignature = d0.validSignature

/-- The decoding loop turns exactly the logs matching the deposit event
topic into rows related to them by `decodedFromLog`, in order. -/
theorem buildDepositsToSave_forall2 (env : Eth1Env) (domain : Bytes) (logs : List DepositLog)
    (ds0 : List Eth1Deposit) (bs : List Nat) (ts : List String)
    (hok : buildDepositsToSave env domain logs = .ok (ds0, bs, ts)) :
    List.Forall₂ (decodedFromLog env domain) ds0
      (logs.filter (fun log =>
        decide ((log.topics.get? 0).getD [] = env.depositEventSignature))) := by
  induction logs generalizing ds0 bs ts with
  | nil =>
    simp only [buildDepositsToSave, Except.ok.injEq, Prod.mk.injEq] at hok
    obtain ⟨rfl, -, -⟩ := hok
    simp
  | cons log rest ih =>
    by_cases hc : (log.topics.get? 0).getD [] = env.depositEventSignature
    · rw [buildDepositsToSave, if_pos hc] at hok
      cases hu : env.unpackDepositLogData log.data with
      | error e => simp [hu] at hok
      | ok t =>
        obtain ⟨pk, wc, am, sg, mi⟩ := t
        cases hb : buildDepositsToSave env domain rest with
        | error e => simp [hu, hb] at hok
        | ok r =>
          obtain ⟨ds1, bs1, ts1⟩ := r
          simp only [hu, hb, Except.ok.injEq, Prod.mk.injEq] at hok
          obtain ⟨h1, -, -⟩ := hok
          subst h1
          rw [List.filter_cons_of_pos (by simpa using hc)]
          exact List.Forall₂.cons
            ⟨pk, wc, am, sg, mi, hu, rfl, rfl, rfl, rfl, rfl, rfl, rfl, rfl, rfl, rfl⟩
            (ih ds1 bs1 ts1 hb)
    · rw [buildDepositsToSave, if_neg hc] at hok
      rw [List.filter_cons_of_neg (by simpa using hc)]
      exact ih ds0 bs ts hok

/-- Enrichment preserves every decoded field of every row, in order. -/
theorem enrichDeposits_forall2 (headers : List (Nat × Header)) (txs : List (String × GethTx))
    (ds0 ds : List Eth1Deposit) (hok : enrichDeposits headers txs ds0 = .ok ds) :
    List.Forall₂ sameDecodedFields ds ds0 := by
  induction ds0 generalizing ds with
  | nil =>
    simp only [enrichDeposits, Except.ok.injEq] at hok
    subst hok
    exact List.Forall₂.nil
  | cons d rest ih =>
    cases hh : mapLookup headers d.blockNumber with
    | none => simp [enrichDeposits, hh] at hok
    | some b =>
      cases ht : mapLookup txs (bytesToHex d.txHash) with
      | none => simp [enrichDeposits, hh, ht] at hok
      | some tx =>
        cases hc : tx.chainId with
        | none => simp [enrichDeposits, hh, ht, hc] at hok
        | some cid =>
          cases hs : tx.senderRes with
          | error e => simp [enrichDeposits, hh, ht, hc, hs] at hok
          | ok sender =>
            cases he : enrichDeposits headers txs rest with
            | error e => simp [enrichDeposits, hh, ht, hc, hs, he] at hok
            | ok ds1 =>
              simp only [enrichDeposits, hh, ht, hc, hs, he, Except.ok.injEq] at hok
              subst hok
              exact List.Forall₂.cons
                ⟨rfl, rfl, rfl, rfl, rfl, rfl, rfl, rfl, rfl, rfl⟩ (ih ds1 he)

/-- Transfer `decodedFromLog` along rows that agree on all decoded fields. -/
theorem forall2_decoded_transfer (env : Eth1Env) (domain : Bytes)
    (ds ds0 : List Eth1Deposit) (logsF : List DepositLog)
    (h1 : List.Forall₂ sameDecodedFields ds ds0)
    (h2 : List.Forall₂ (decodedFromLog env domain) ds0 logsF) :
    List.Forall₂ (decodedFromLog env domain) ds logsF := by
  induction h1 generalizing logsF with
  | nil =>
    cases h2
    exact List.Forall₂.nil
  | cons hd htl ih =>
    cases h2 with
    | cons hd2 htl2 =>
      refine List.Forall₂.cons ?_ (ih _ htl2)
      obtain ⟨pk, wc, am, sg, mi, hu, e1, e2, e3, e4, e5, e6, e7, e8, e9, e10⟩ := hd2
      obtain ⟨f1, f2, f3, f4, f5, f6, f7, f8, f9, f10⟩ := hd
      exact ⟨pk, wc, am, sg, mi, hu, f1.trans e1, f2.trans e2, f3.trans e3, f4.trans e4,
        f5.trans e5, f6.trans e6, f7.trans e7, f8.trans e8, f9.trans e9, f10.trans e10⟩

/-- C8: a successful fetch returns one row per matching deposit log, in
order and with no log dropped: each row records the decoded fields
unchanged and carries `validSignature = true` exactly when the BLS
verification of that deposit succeeded — an invalid-signature deposit is
still included, merely flagged `validSignature = false`. -/
theorem fetchEth1Deposits_flags (env : Eth1Env) (oracle : BatchOracle)
    (fromBlock toBlock : Nat) (ds : List Eth1Deposit)
    (hok : fetchEth1Deposits env oracle fromBlock toBlock = .ok ds) :
    ∃ logs domain, env.filterLogs fromBlock toBlock = .ok logs
      ∧ computeDepositDomain env = .ok domain
      ∧ List.Forall₂ (decodedFromLog env domain) ds
          (logs.filter (fun log =>
            decide ((log.topics.get? 0).getD [] = env.depositEventSignature))) := by
  cases hf : env.filterLogs fromBlock toBlock with
  | error e => simp [fetchEth1Deposits, hf] at hok
  | ok logs =>
    cases hd : computeDepositDomain env with
    | error e => simp [fetchEth1Deposits, hf, hd] at hok
    | ok domain =>
      cases hb : buildDepositsToSave env domain logs with
      | error e => simp [fetchEth1Deposits, hf, hd, hb] at hok
      | ok r =>
        obtain ⟨ds0, bs, ts⟩ := r
        cases hbat : eth1BatchRequestHeadersAndTxs oracle bs ts with
        | error e => simp [fetchEth1Deposits, hf, hd, hb, hbat] at hok
        | ok m =>
          obtain ⟨headers, txs⟩ := m
          simp only [fetchEth1Deposits, hf, hd, hb, hbat] at hok
          exact ⟨logs, domain, rfl, rfl,
            forall2_decoded_transfer env domain ds ds0 _
              (enrichDeposits_forall2 headers txs ds0 ds hok)
              (buildDepositsToSave_forall2 env domain logs ds0 bs ts hb)⟩

/-- A deposit log whose decoded signature fails BLS verification. -/
def c8Log1 : DepositLog := ⟨[[7]], [1], 12, [170], 3, false⟩

/-- A (reorg-removed) deposit log whose decoded signature verifies. -/
def c8Log2 : DepositLog := ⟨[[7]], [2], 13, [187], 4, true⟩

/-- A concrete fetch environment: both logs match the deposit topic, the
unpack oracle decodes the log data, and verification rejects exactly the
signature `[1]` (the one decoded from the first log). -/
def c8Env : Eth1Env :=
  ⟨[7], "mainnet", .ok [0, 0, 0, 0], [3, 0, 0, 0], List.replicate 32 0,
    fun _ f _ => .ok f,
    fun d => .ok (d, [2], [1, 0, 0, 0, 0, 0, 0, 0], d, d),
    fun dd _ => if dd.signature = [1] then some "incorrect signature" else none,
    fun _ _ => .ok [c8Log1, c8Log2]⟩

/-- A batch oracle where every sub-request succeeds. -/
def c8Oracle : BatchOracle :=
  ⟨none, fun _ => none, fun b => ⟨b * 2⟩, fun _ => none, fun _ => ⟨[5], some 1, .ok [8]⟩⟩

/-- The enriched row produced from `c8Log1` (invalid signature, kept). -/
def c8RowInvalid : Eth1Deposit :=
  ⟨[170], [5], 3, 12, 24, [8], [1], [2], 1, [1], [1], false, false⟩

/-- The enriched row produced from `c8Log2` (valid signature). -/
def c8RowValid : Eth1Deposit :=
  ⟨[187], [5], 4, 13, 26, [8], [2], [2], 1, [2], [2], true, true⟩

/-- Witness for C8: the concrete fetch keeps the invalid-signature
deposit with `validSignature = false` next to the valid one. -/
theorem fetchEth1Deposits_flags_witness :
    fetchEth1Deposits c8Env c8Oracle 1 2 = .ok [c8RowInvalid, c8RowValid]
    ∧ c8RowInvalid.validSignature = false ∧ c8RowValid.validSignature = true
    ∧ (∃ logs domain, c8Env.filterLogs 1 2 = .ok logs
        ∧ computeDepositDomain c8Env = .ok domain
        ∧ List.Forall₂ (decodedFromLog c8Env domain) [c8RowInvalid, c8RowValid]
            (logs.filter (fun log =>
              decide ((log.topics.get? 0).getD [] = c8Env.depositEventSignature)))) :=
  ⟨by decide, rfl, rfl,
    fetchEth1Deposits_flags c8Env c8Oracle 1 2 [c8RowInvalid, c8RowValid] (by decide)⟩

/-! ## Scanner cycle and provider-error retry (`eth1DepositsExporter`, part_000 lines 58-141) -/

/-- ASCII decimal digit test, the `[0-9]` character class. -/
def isDigitChar (c : Char) : Bool := 48 ≤ c.toNat && c.toNat ≤ 57

/-- Match of the regex `query returned more than [0-9]+ results` at the
start of a character list (the digit class is followed by a non-digit,
so greedy matching is exact). -/
def matchMoreResultsAt (cs : List Char) : Bool :=
  let p1 := "query returned more than ".data
  if p1.isPrefixOf cs then
    let rest := cs.drop p1.length
    let digits := rest.takeWhile isDigitChar
    decide (1 ≤ digits.length) && " results".data.isPrefixOf (rest.drop digits.length)
  else false

/-- Unanchored regex search: try the pattern at every suffix. -/
def anySuffix (p : List Char → Bool) : List Char → Bool
  | [] => p []
  | c :: rest => p (c :: rest) || anySuffix p rest

/-- `infuraToMuchResultsErrorRE.MatchString`: the provider error
`query returned more than N results` occurs in the message. -/
def infuraTooMuchResultsMatch (s : String) : Bool := anySuffix matchMoreResultsAt s.data

/-- `gethRequestEntityTooLargeRE.MatchString`: the provider error
`413 Request Entity Too Large` occurs in the message. -/
def gethEntityTooLargeMatch (s : String) : Bool :=
  anySuffix (fun cs => "413 Request Entity Too Large".data.isPrefixOf cs) s.data

/-- The outcome of one iteration of the scanner loop.  `attempts` is a
ghost trace of the `(fromBlock, toBlock)` ranges passed to
`fetchEth1Deposits`, recorded to reason about the retry behaviour;
`lastFetchedBlock` is the progress marker after the iteration and
`sleepSeconds` the sleep the iteration ends with. -/
structure CycleResult where
  attempts : List (Nat × Nat)
  lastFetchedBlock : Nat
  store : List Eth1Deposit
  sleepSeconds : Nat
deriving Repr

/-- The tail of a successful fetch: save the batch (advancing the
progress marker only on success) and pick the follow-up sleep — 5s while
still catching up to the head, 60s once synced. -/
def eth1CycleFinish (beginErr prepErr commitErr : Option String)
    (execErr : Eth1Deposit → Option String) (store : List Eth1Deposit)
    (lastFetchedBlock blockHeight : Nat) (attempts : List (Nat × Nat)) (toBlock : Nat)
    (depositsToSave : List Eth1Deposit) : CycleResult :=
  match saveEth1Deposits beginErr prepErr commitErr execErr store depositsToSave with
  | (.error _, store2) => ⟨attempts, lastFetchedBlock, store2, 5⟩
  | (.ok _, store2) => ⟨attempts, toBlock, store2, if blockHeight ≠ toBlock then 5 else 60⟩

/-- One iteration of the `eth1DepositsExporter` loop: read the highest
persisted deposit block and the chain head, select the scan range, fetch
the deposits — retrying once with the window narrowed to
`fromBlock + 100` (capped at the head) when the provider reported too
many results or an oversized response — and on success save the batch
and advance the progress marker; every unrecovered error ends the
iteration with a 5-second sleep and no progress-marker advance. -/
def eth1DepositsCycle (env : Eth1Env) (oracle : BatchOracle)
    (dbMaxBlockRes headerRes : Except String Nat) (contractFirstBlock : Nat)
    (beginErr prepErr commitErr : Option String) (execErr : Eth1Deposit → Option String)
    (store : List Eth1Deposit) (lastFetchedBlock : Nat) : CycleResult :=
  match dbMaxBlockRes with
  | .error _ => ⟨[], lastFetchedBlock, store, 5⟩
  | .ok lastDepositBlock =>
    match headerRes with
    | .error _ => ⟨[], lastFetchedBlock, store, 5⟩
    | .ok blockHeight =>
      let r := eth1ScanRange lastDepositBlock lastFetchedBlock contractFirstBlock blockHeight
      match fetchEth1Deposits env oracle r.1 r.2 with
      | .ok depositsToSave =>
        eth1CycleFinish beginErr prepErr commitErr execErr store lastFetchedBlock
          blockHeight [(r.1, r.2)] r.2 depositsToSave
      | .error e =>
        if infuraTooMuchResultsMatch e || gethEntityTooLargeMatch e then
          let toBlock2 := (r.1 + 100) % two64
          let toBlock2 := if toBlock2 > blockHeight then blockHeight else toBlock2
          match fetchEth1Deposits env oracle r.1 toBlock2 with
          | .ok depositsToSave =>
            eth1CycleFinish beginErr prepErr commitErr execErr store lastFetchedBlock
              blockHeight [(r.1, r.2), (r.1, toBlock2)] toBlock2 depositsToSave
          | .error _ => ⟨[(r.1, r.2), (r.1, toBlock2)], lastFetchedBlock, store, 5⟩
        else ⟨[(r.1, r.2)], lastFetchedBlock, store, 5⟩

/-- C9: when the fetch of the selected range fails with a provider error
matching `query returned more than N results` or
`413 Request Entity Too Large`, the cycle retries exactly once, with the
window reduced to `toBlock = fromBlock + 100` capped at the chain head
(the trace of fetch attempts is exactly the original range followed by
the reduced one); a fetch error matching neither pattern ends the cycle
directly with a 5-second sleep and no progress-marker advance, and so
does a failing retry. -/
theorem eth1DepositsCycle_retry (env : Eth1Env) (oracle : BatchOracle)
    (lp head cf : Nat) (beginErr prepErr commitErr : Option String)
    (execErr : Eth1Deposit → Option String) (store : List Eth1Deposit) (lastFetched : Nat) :
    (∀ e, fetchEth1Deposits env oracle (eth1ScanRange lp lastFetched cf head).1
        (eth1ScanRange lp lastFetched cf head).2 = .error e →
      (infuraTooMuchResultsMatch e || gethEntityTooLargeMatch e) = true →
      (eth1DepositsCycle env oracle (.ok lp) (.ok head) cf beginErr prepErr commitErr
          execErr store lastFetched).attempts =
        [((eth1ScanRange lp lastFetched cf head).1, (eth1ScanRange lp lastFetched cf head).2),
         ((eth1ScanRange lp lastFetched cf head).1,
          if ((eth1ScanRange lp lastFetched cf head).1 + 100) % two64 > head then head
          else ((eth1ScanRange lp lastFetched cf head).1 + 100) % two64)])
    ∧ (∀ e, fetchEth1Deposits env oracle (eth1ScanRange lp lastFetched cf head).1
        (eth1ScanRange lp lastFetched cf head).2 = .error e →
      (infuraTooMuchResultsMatch e || gethEntityTooLargeMatch e) = false →
      eth1DepositsCycle env oracle (.ok lp) (.ok head) cf beginErr prepErr commitErr
          execErr store lastFetched =
        ⟨[((eth1ScanRange lp lastFetched cf head).1, (eth1ScanRange lp lastFetched cf head).2)],
         lastFetched, store, 5⟩)
    ∧ (∀ e e2, fetchEth1Deposits env oracle (eth1ScanRange lp lastFetched cf head).1
        (eth1ScanRange lp lastFetched cf head).2 = .error e →
      (infuraTooMuchResultsMatch e || gethEntityTooLargeMatch e) = true →
      fetchEth1Deposits env oracle (eth1ScanRange lp lastFetched cf head).1
        (if ((eth1ScanRange lp lastFetched cf head).1 + 100) % two64 > head then head
         else ((eth1ScanRange lp lastFetched cf head).1 + 100) % two64) = .error e2 →
      eth1DepositsCycle env oracle (.ok lp) (.ok head) cf beginErr prepErr commitErr
          execErr store lastFetched =
        ⟨[((eth1ScanRange lp lastFetched cf head).1, (eth1ScanRange lp lastFetched cf head).2),
          ((eth1ScanRange lp lastFetched cf head).1,
           if ((eth1ScanRange lp lastFetched cf head).1 + 100) % two64 > head then head
           else ((eth1ScanRange lp lastFetched cf head).1 + 100) % two64)],
         lastFetched, store, 5⟩) := by
  refine ⟨?_, ?_, ?_⟩
  · intro e hfe hm
    simp only [eth1DepositsCycle, hfe, hm, if_true]
    cases hf2 : fetchEth1Deposits env oracle (eth1ScanRange lp lastFetched cf head).1
        (if ((eth1ScanRange lp lastFetched cf head).1 + 100) % two64 > head then head
         else ((eth1ScanRange lp lastFetched cf head).1 + 100) % two64) with
    | ok ds =>
      simp only [hf2, eth1CycleFinish]
      cases hs : saveEth1Deposits beginErr prepErr commitErr execErr store ds with
      | mk res store2 => cases res <;> simp
    | error e2 => simp [hf2]
  · intro e hfe hm
    simp only [eth1DepositsCycle, hfe, hm, Bool.false_eq_true, if_false]
  · intro e e2 hfe hm hf2
    simp only [eth1DepositsCycle, hfe, hm, if_true, hf2]

/-- A fetch environment whose provider always reports too many results. -/
def c9Env : Eth1Env :=
  ⟨[7], "mainnet", .ok [0, 0, 0, 0], [3, 0, 0, 0], List.replicate 32 0,
    fun _ f _ => .ok f,
    fun d => .ok (d, [2], [1, 0, 0, 0, 0, 0, 0, 0], d, d),
    fun _ _ => none,
    fun _ _ => .error "query returned more than 10000 results"⟩

/-- The wrapped fetch error produced by `c9Env`. -/
def c9ErrWrapped : String :=
  "error getting logs from eth1-client: query returned more than 10000 results"

/-- Witness for C9: with head 50 the selected range is `[1, 50]`, the
matching provider error triggers one retry capped at the head, and the
failing retry ends the cycle with sleep 5 and no progress. -/
theorem eth1DepositsCycle_retry_witness :
    eth1ScanRange 0 0 0 50 = (1, 50)
    ∧ fetchEth1Deposits c9Env c8Oracle (eth1ScanRange 0 0 0 50).1
        (eth1ScanRange 0 0 0 50).2 = .error c9ErrWrapped
    ∧ (infuraTooMuchResultsMatch c9ErrWrapped || gethEntityTooLargeMatch c9ErrWrapped) = true
    ∧ fetchEth1Deposits c9Env c8Oracle (eth1ScanRange 0 0 0 50).1
        (if ((eth1ScanRange 0 0 0 50).1 + 100) % two64 > 50 then 50
         else ((eth1ScanRange 0 0 0 50).1 + 100) % two64) = .error c9ErrWrapped
    ∧ eth1DepositsCycle c9Env c8Oracle (.ok 0) (.ok 50) 0 none none none (fun _ => none) [] 0 =
        ⟨[((eth1ScanRange 0 0 0 50).1, (eth1ScanRange 0 0 0 50).2),
          ((eth1ScanRange 0 0 0 50).1,
           if ((eth1ScanRange 0 0 0 50).1 + 100) % two64 > 50 then 50
           else ((eth1ScanRange 0 0 0 50).1 + 100) % two64)],
         0, [], 5⟩ :=
  ⟨by decide, by decide, by decide, by decide,
    (eth1DepositsCycle_retry c9Env c8Oracle 0 50 0 none none none (fun _ => none) [] 0).2.2
      c9ErrWrapped c9ErrWrapped (by decide) (by decide) (by decide)⟩

/-! ## Epoch assignment cache (`GetEpochAssignments`, prysm.go lines 175-235) -/

/-- One `ethpb.ValidatorAssignments_CommitteeAssignment` entry. -/
structure CommitteeAssignment where
  proposerSlots : List Nat
  attesterSlot : Nat
  committeeIndex : Nat
  beaconCommittees : List Nat
  validatorIndex : Nat
deriving DecidableEq, Repr

/-- The composite attester key. -/
abbrev AttKey := Nat × Nat × Nat

/-- Modelled from the spec: `utils.FormatAttestorAssignmentKey` is not
under `src/`; the spec describes it as the composite key of
(attester slot, committee index, member index), which the triple
realizes (the concrete dash-separated string rendering is injective in
the same way). -/
def formatAttestorAssignmentKey (attesterSlot committeeIndex memberIndex : Nat) : AttKey :=
  (attesterSlot, committeeIndex, memberIndex)

/-- `types.EpochAssignments`: proposer-slot → validator and composite
attester key → validator, as association-list maps. -/
structure EpochAssignments where
  proposerAssignments : List (Nat × Nat)
  attestorAssignments : List (AttKey × Nat)
deriving DecidableEq, Repr

/-- The extraction loop of `GetEpochAssignments` (lines 219-227):
proposer assignments keyed by proposer slot, attestation assignments
keyed by slot, committee index and committee member position. -/
def buildAssignments (asgs : List CommitteeAssignment) : EpochAssignments :=
  asgs.foldl (fun acc assignment =>
    ⟨assignment.proposerSlots.foldl
        (fun m slot => mapInsert m slot assignment.validatorIndex) acc.proposerAssignments,
      assignment.beaconCommittees.enum.foldl
        (fun m p => mapInsert m
          (formatAttestorAssignmentKey assignment.attesterSlot assignment.committeeIndex p.1)
          p.2) acc.attestorAssignments⟩)
    ⟨[], []⟩

/-- The `lru.Cache` of size 10, most recent first. -/
abbrev AssignmentsCache := List (Nat × EpochAssignments)

/-- `assignmentsCache.Get`: a hit refreshes the entry's recency. -/
def lruGet (cache : AssignmentsCache) (epoch : Nat) :
    Option EpochAssignments × AssignmentsCache :=
  match mapLookup cache epoch with
  | none => (none, cache)
  | some v => (some v, (epoch, v) :: cache.filter (fun p => p.1 != epoch))

/-- `assignmentsCache.Add`: insert at the front, evicting beyond the
capacity of 10. -/
def lruAdd (cache : AssignmentsCache) (epoch : Nat) (v : EpochAssignments) :
    AssignmentsCache :=
  ((epoch, v) :: cache.filter (fun p => p.1 != epoch)).take 10

/-- `GetEpochAssignments`: return the cached value on a hit; otherwise
page through the assignment-listing RPC (abstracted as `upstream`, the
accumulated pages or the first page error), build the two maps, and add
the result to the cache only when both maps are non-empty.  The computed
result is returned either way; only an upstream RPC failure yields an
error.  Returns the result together with the cache after the call. -/
def GetEpochAssignments (cache : AssignmentsCache) (epoch : Nat)
    (upstream : Except String (List CommitteeAssignment)) :
    Except String EpochAssignments × AssignmentsCache :=
  match lruGet cache epoch with
  | (some cachedValue, cache2) => (.ok cachedValue, cache2)
  | (none, cache2) =>
    match upstream with
    | .error e =>
      (.error ("error retrieving validator assignment response for caching: " ++ e), cache2)
    | .ok validatorAssignmentes =>
      let assignments := buildAssignments validatorAssignmentes
      if assignments.attestorAssignments.length > 0 ∧
          assignments.proposerAssignments.length > 0 then
        (.ok assignments, lruAdd cache2 epoch assignments)
      else
        (.ok assignments, cache2)

/-- Every value stored in the cache has both maps non-empty. -/
def cacheValuesNonempty (cache : AssignmentsCache) : Prop :=
  ∀ p ∈ cache, p.2.attestorAssignments ≠ [] ∧ p.2.proposerAssignments ≠ []

/-- A successful association-list lookup exposes a member binding. -/
theorem mapLookup_mem {α β : Type} [DecidableEq α] (c : List (α × β)) (k : α) (v : β)
    (h : mapLookup c k = some v) : (k, v) ∈ c := by
  induction c with
  | nil => simp [mapLookup] at h
  | cons p rest ih =>
    rw [mapLookup] at h
    by_cases hk : p.1 = k
    · rw [if_pos hk] at h
      obtain ⟨k0, v0⟩ := p
      simp only [Option.some.injEq] at h
      simp only at hk
      subst hk; subst h
      exact List.mem_cons_self _ _
    · rw [if_neg hk] at h
      exact List.mem_cons_of_mem _ (ih h)

/-- One `GetEpochAssignments` call preserves the cache invariant that
every stored value has both maps non-empty. -/
theorem GetEpochAssignments_inv (cache : AssignmentsCache) (epoch : Nat)
    (upstream : Except String (List CommitteeAssignment))
    (hinv : cacheValuesNonempty cache) :
    cacheValuesNonempty (GetEpochAssignments cache epoch upstream).2 := by
  cases hl : mapLookup cache epoch with
  | some v =>
    intro p hp
    simp only [GetEpochAssignments, lruGet, hl] at hp
    rcases List.mem_cons.mp hp with rfl | hp
    · exact hinv _ (mapLookup_mem cache epoch v hl)
    · exact hinv _ (List.mem_of_mem_filter hp)
  | none =>
    cases upstream with
    | error e => simpa only [GetEpochAssignments, lruGet, hl] using hinv
    | ok asgs =>
      by_cases hg : (buildAssignments asgs).attestorAssignments.length > 0 ∧
          (buildAssignments asgs).proposerAssignments.length > 0
      · intro p hp
        simp only [GetEpochAssignments, lruGet, hl, if_pos hg, lruAdd] at hp
        have hp2 := List.take_subset _ _ hp
        rcases List.mem_cons.mp hp2 with rfl | hp3
        · exact ⟨by simpa using List.length_pos.mp hg.1,
            by simpa using List.length_pos.mp hg.2⟩
        · exact hinv _ (List.mem_of_mem_filter hp3)
      · simpa only [GetEpochAssignments, lruGet, hl, if_neg hg] using hinv

/-- C5: a computed result is committed to the assignments cache only
when both the proposer and the attester map are non-empty: the
non-emptiness invariant of the cache is preserved, a computed result
with an empty map leaves the cache untouched on a miss, and any value a
later hit can return for the epoch has both maps non-empty. -/
theorem GetEpochAssignments_cache_guard (cache : AssignmentsCache) (epoch : Nat)
    (upstream : Except String (List CommitteeAssignment))
    (hinv : cacheValuesNonempty cache) :
    cacheValuesNonempty (GetEpochAssignments cache epoch upstream).2
    ∧ (mapLookup cache epoch = none → ∀ asgs, upstream = .ok asgs →
        ((buildAssignments asgs).attestorAssignments = []
          ∨ (buildAssignments asgs).proposerAssignments = []) →
        (GetEpochAssignments cache epoch upstream).2 = cache)
    ∧ (∀ a, mapLookup (GetEpochAssignments cache epoch upstream).2 epoch = some a →
        a.attestorAssignments ≠ [] ∧ a.proposerAssignments ≠ []) := by
  refine ⟨GetEpochAssignments_inv cache epoch upstream hinv, ?_, ?_⟩
  · intro hl asgs hup hempty
    subst hup
    have hg : ¬ ((buildAssignments asgs).attestorAssignments.length > 0 ∧
        (buildAssignments asgs).proposerAssignments.length > 0) := by
      rcases hempty with he | he <;> simp [he]
    simp only [GetEpochAssignments, lruGet, hl, if_neg hg]
  · intro a ha
    exact GetEpochAssignments_inv cache epoch upstream hinv _
      (mapLookup_mem _ epoch a ha)

/-- Witness for C5: an empty upstream answer is returned but never
cached on an empty cache. -/
theorem GetEpochAssignments_cache_guard_witness :
    cacheValuesNonempty ([] : AssignmentsCache)
    ∧ mapLookup ([] : AssignmentsCache) 0 = none
    ∧ (GetEpochAssignments [] 0 (.ok [])).2 = []
    ∧ (GetEpochAssignments [] 0 (.ok [])).1 = .ok ⟨[], []⟩ := by
  have hinv : cacheValuesNonempty ([] : AssignmentsCache) := by
    intro p hp; simp at hp
  refine ⟨hinv, rfl, ?_, rfl⟩
  exact (GetEpochAssignments_cache_guard [] 0 (.ok []) hinv).2.1 rfl [] rfl (Or.inl rfl)

/-- C10: on a cache miss, `GetEpochAssignments` returns the freshly
computed assignments with no error — also when the non-empty guard keeps
them out of the cache — and errors exactly when the upstream
assignment-listing RPC fails. -/
theorem GetEpochAssignments_miss_returns_fresh (cache : AssignmentsCache) (epoch : Nat)
    (upstream : Except String (List CommitteeAssignment))
    (hmiss : mapLookup cache epoch = none) :
    (∀ asgs, upstream = .ok asgs →
      (GetEpochAssignments cache epoch upstream).1 = .ok (buildAssignments asgs))
    ∧ (∀ e, upstream = .error e →
      (GetEpochAssignments cache epoch upstream).1 =
        .error ("error retrieving validator assignment response for caching: " ++ e)) := by
  constructor
  · intro asgs hup
    subst hup
    by_cases hg : (buildAssignments asgs).attestorAssignments.length > 0 ∧
        (buildAssignments asgs).proposerAssignments.length > 0
    · simp only [GetEpochAssignments, lruGet, hmiss, if_pos hg]
    · simp only [GetEpochAssignments, lruGet, hmiss, if_neg hg]
  · intro e hup
    subst hup
    simp only [GetEpochAssignments, lruGet, hmiss]

/-- Witness for C10: the uncached empty result is returned with no
error while the cache stays empty. -/
theorem GetEpochAssignments_miss_returns_fresh_witness :
    mapLookup ([] : AssignmentsCache) 0 = none
    ∧ (GetEpochAssignments [] 0 (.ok [])).1 = .ok (buildAssignments [])
    ∧ (GetEpochAssignments [] 0 (.ok [])).2 = [] :=
  ⟨rfl, (GetEpochAssignments_miss_returns_fresh [] 0 (.ok []) rfl).1 [] rfl, by decide⟩

/-! ## Block normalization data model (`parseRpcBlock` and friends, prysm.go lines 595-1361)

The wire side mirrors the `ethpb` protobuf messages as used by the
parse functions; the canonical side mirrors the `types.*` structures
they build.  `Checkpoint`, `AttestationData`, `Eth1Data` and
`IndexedAttestation` have identical shapes on both sides (the Go
conversion is a field-wise copy), so one structure serves both. -/

/-- A checkpoint (`ethpb.Checkpoint` / `types.Checkpoint`). -/
structure Checkpoint where
  epoch : Nat
  root : Bytes
deriving DecidableEq, Repr

/-- Attestation data (`ethpb.AttestationData` / `types.AttestationData`). -/
structure AttestationData where
  slot : Nat
  committeeIndex : Nat
  beaconBlockRoot : Bytes
  source : Checkpoint
  target : Checkpoint
deriving DecidableEq, Repr

/-- Eth1 data (`ethpb.Eth1Data` / `types.Eth1Data`). -/
structure Eth1Data where
  depositRoot : Bytes
  depositCount : Nat
  blockHash : Bytes
deriving DecidableEq, Repr

/-- An indexed attestation (`ethpb.IndexedAttestation` /
`types.IndexedAttestation`). -/
structure IndexedAttestation where
  data : AttestationData
  signature : Bytes
  attestingIndices : List Nat
deriving DecidableEq, Repr

/-- A wire attestation (`ethpb.Attestation`). -/
structure WireAttestation where
  aggregationBits : Bytes
  data : AttestationData
  signature : Bytes
deriving DecidableEq, Repr

/-- A wire beacon block header (`ethpb.BeaconBlockHeader`). -/
structure WireBlockHeader where
  slot : Nat
  proposerIndex : Nat
  parentRoot : Bytes
  stateRoot : Bytes
  bodyRoot : Bytes
deriving DecidableEq, Repr

/-- A signed wire beacon block header (`ethpb.SignedBeaconBlockHeader`). -/
structure WireSignedBlockHeader where
  header : WireBlockHeader
  signature : Bytes
deriving DecidableEq, Repr

/-- A wire proposer slashing (`ethpb.ProposerSlashing`). -/
structure WireProposerSlashing where
  header1 : WireSignedBlockHeader
  header2 : WireSignedBlockHeader
deriving DecidableEq, Repr

/-- A wire attester slashing (`ethpb.AttesterSlashing`). -/
structure WireAttesterSlashing where
  attestation1 : IndexedAttestation
  attestation2 : IndexedAttestation
deriving DecidableEq, Repr

/-- Wire deposit data (`ethpb.Deposit_Data`). -/
structure WireDepositData where
  publicKey : Bytes
  withdrawalCredentials : Bytes
  amount : Nat
  signature : Bytes
deriving DecidableEq, Repr

/-- A wire deposit (`ethpb.Deposit`). -/
structure WireDeposit where
  proof : List Bytes
  data : WireDepositData
deriving DecidableEq, Repr

/-- A wire voluntary exit (`ethpb.VoluntaryExit`). -/
structure WireVoluntaryExit where
  epoch : Nat
  validatorIndex : Nat
deriving DecidableEq, Repr

/-- A signed wire voluntary exit (`ethpb.SignedVoluntaryExit`). -/
structure WireSignedVoluntaryExit where
  exit : WireVoluntaryExit
  signature : Bytes
deriving DecidableEq, Repr

/-- A wire sync aggregate (`ethpb.SyncAggregate`); the committee bits
are already materialized as bytes (`SyncCommitteeBits.Bytes()`). -/
structure WireSyncAggregate where
  syncCommitteeBits : Bytes
  syncCommitteeSignature : Bytes
deriving DecidableEq, Repr

/-- A wire withdrawal (`enginev1.Withdrawal`, capella payloads only). -/
structure WireWithdrawal where
  index : Nat
  validatorIndex : Nat
  address : Bytes
  amount : Nat
deriving DecidableEq, Repr

/-- A wire execution payload (bellatrix revision, no withdrawals). -/
structure WireExecutionPayload where
  parentHash : Bytes
  feeRecipient : Bytes
  stateRoot : Bytes
  receiptsRoot : Bytes
  logsBloom : Bytes
  prevRandao : Bytes
  blockNumber : Nat
  gasLimit : Nat
  gasUsed : Nat
  timestamp : Nat
  extraData : Bytes
  baseFeePerGas : Bytes
  blockHash : Bytes
  transactions : List Bytes
deriving DecidableEq, Repr

/-- A wire execution payload of the capella revision (adds withdrawals). -/
structure WireExecutionPayloadCapella where
  parentHash : Bytes
  feeRecipient : Bytes
  stateRoot : Bytes
  receiptsRoot : Bytes
  logsBloom : Bytes
  prevRandao : Bytes
  blockNumber : Nat
  gasLimit : Nat
  gasUsed : Nat
  timestamp : Nat
  extraData : Bytes
  baseFeePerGas : Bytes
  blockHash : Bytes
  transactions : List Bytes
  withdrawals : List WireWithdrawal
deriving DecidableEq, Repr

/-- A wire BLS-to-execution change (`ethpb.BLSToExecutionChange`). -/
structure WireBLSToExecutionChange where
  validatorIndex : Nat
  fromBlsPubkey : Bytes
  toExecutionAddress : Bytes
deriving DecidableEq, Repr

/-- A signed wire BLS-to-execution change. -/
structure WireSignedBLSToExecutionChange where
  message : WireBLSToExecutionChange
  signature : Bytes
deriving DecidableEq, Repr

/-- The phase0 wire block body. -/
structure WireBodyPhase0 where
  randaoReveal : Bytes
  graffiti : Bytes
  eth1Data : Eth1Data
  proposerSlashings : List WireProposerSlashing
  attesterSlashings : List WireAttesterSlashing
  attestations : List WireAttestation
  deposits : List WireDeposit
  voluntaryExits : List WireSignedVoluntaryExit
deriving DecidableEq, Repr

/-- The altair wire block body (adds the sync aggregate). -/
structure WireBodyAltair where
  randaoReveal : Bytes
  graffiti : Bytes
  eth1Data : Eth1Data
  proposerSlashings : List WireProposerSlashing
  attesterSlashings : List WireAttesterSlashing
  attestations : List WireAttestation
  deposits : List WireDeposit
  voluntaryExits : List WireSignedVoluntaryExit
  syncAggregate : Option WireSyncAggregate
deriving DecidableEq, Repr

/-- The bellatrix wire block body (adds the execution payload). -/
structure WireBodyBellatrix where
  randaoReveal : Bytes
  graffiti : Bytes
  eth1Data : Eth1Data
  proposerSlashings : List WireProposerSlashing
  attesterSlashings : List WireAttesterSlashing
  attestations : List WireAttestation
  deposits : List WireDeposit
  voluntaryExits : List WireSignedVoluntaryExit
  syncAggregate : Option WireSyncAggregate
  executionPayload : Option WireExecutionPayload
deriving DecidableEq, Repr

/-- The capella wire block body (adds withdrawals inside the payload and
the BLS-to-execution changes). -/
structure WireBodyCapella where
  randaoReveal : Bytes
  graffiti : Bytes
  eth1Data : Eth1Data
  proposerSlashings : List WireProposerSlashing
  attesterSlashings : List WireAttesterSlashing
  attestations : List WireAttestation
  deposits : List WireDeposit
  voluntaryExits : List WireSignedVoluntaryExit
  syncAggregate : Option WireSyncAggregate
  executionPayload : Option WireExecutionPayloadCapella
  blsToExecutionChanges : List WireSignedBLSToExecutionChange
deriving DecidableEq, Repr

/-- A phase0 wire block. -/
structure WireBlockPhase0 where
  slot : Nat
  proposerIndex : Nat
  parentRoot : Bytes
  stateRoot : Bytes
  body : WireBodyPhase0
deriving DecidableEq, Repr

/-- A signed phase0 wire block. -/
structure WireSignedBlockPhase0 where
  block : WireBlockPhase0
  signature : Bytes
deriving DecidableEq, Repr

/-- An altair wire block. -/
structure WireBlockAltair where
  slot : Nat
  proposerIndex : Nat
  parentRoot : Bytes
  stateRoot : Bytes
  body : WireBodyAltair
deriving DecidableEq, Repr

/-- A signed altair wire block. -/
structure WireSignedBlockAltair where
  block : WireBlockAltair
  signature : Bytes
deriving DecidableEq, Repr

/-- A bellatrix wire block. -/
structure WireBlockBellatrix where
  slot : Nat
  proposerIndex : Nat
  parentRoot : Bytes
  stateRoot : Bytes
  body : WireBodyBellatrix
deriving DecidableEq, Repr

/-- A signed bellatrix wire block. -/
structure WireSignedBlockBellatrix where
  block : WireBlockBellatrix
  signature : Bytes
deriving DecidableEq, Repr

/-- A capella wire block. -/
structure WireBlockCapella where
  slot : Nat
  proposerIndex : Nat
  parentRoot : Bytes
  stateRoot : Bytes
  body : WireBodyCapella
deriving DecidableEq, Repr

/-- A signed capella wire block. -/
structure WireSignedBlockCapella where
  block : WireBlockCapella
  signature : Bytes
deriving DecidableEq, Repr

/-- The opaque wire container (`ethpb.BeaconBlockContainer`): at most one
of the four per-revision variants is populated in practice; `GetXBlock()`
returning nil is modelled as the option being `none`. -/
structure BeaconBlockContainer where
  blockRoot : Bytes
  canonical : Bool
  phase0Block : Option WireSignedBlockPhase0
  altairBlock : Option WireSignedBlockAltair
  bellatrixBlock : Option WireSignedBlockBellatrix
  capellaBlock : Option WireSignedBlockCapella
deriving DecidableEq, Repr

/-- A slashed block header stored by the normalizer.  The Go code reuses
`types.Block` for `Header1`/`Header2` of a proposer slashing but sets
only these five fields; they get their own structure here to keep
`Block` non-recursive. -/
structure SlashingHeaderBlock where
  slot : Nat
  parentRoot : Bytes
  stateRoot : Bytes
  signature : Bytes
  bodyRoot : Bytes
deriving DecidableEq, Repr

/-- A canonical proposer slashing (`types.ProposerSlashing`). -/
structure ProposerSlashing where
  proposerIndex : Nat
  header1 : SlashingHeaderBlock
  header2 : SlashingHeaderBlock
deriving DecidableEq, Repr

/-- A canonical attester slashing (`types.AttesterSlashing`). -/
structure AttesterSlashing where
  attestation1 : IndexedAttestation
  attestation2 : IndexedAttestation
deriving DecidableEq, Repr

/-- A canonical attestation (`types.Attestation`): the wire fields plus
the resolved attester validator indices. -/
structure Attestation where
  aggregationBits : Bytes
  data : AttestationData
  signature : Bytes
  attesters : List Nat
deriving DecidableEq, Repr

/-- A canonical deposit-in-block (`types.Deposit`). -/
structure CanonDeposit where
  proof : List Bytes
  publicKey : Bytes
  withdrawalCredentials : Bytes
  amount : Nat
  signature : Bytes
deriving DecidableEq, Repr

/-- A canonical voluntary exit (`types.VoluntaryExit`). -/
structure VoluntaryExit where
  epoch : Nat
  validatorIndex : Nat
  signature : Bytes
deriving DecidableEq, Repr

/-- A canonical sync aggregate (`types.SyncAggregate`). -/
structure SyncAggregate where
  syncCommitteeBits : Bytes
  syncAggregateParticipation : Rat
  syncCommitteeSignature : Bytes
deriving DecidableEq, Repr

/-- A canonical decoded transaction (`types.Transaction`). -/
structure Transaction where
  raw : Bytes
  txHash : Bytes
  accountNonce : Nat
  price : Bytes
  gasLimit : Nat
  sender : Bytes
  recipient : Bytes
  amount : Bytes
  payload : Bytes
  maxPriorityFeePerGas : Nat
  maxFeePerGas : Nat
deriving DecidableEq, Repr

/-- A canonical withdrawal record (`types.Withdrawals`): tagged with the
slot and root of the block it was produced from. -/
structure Withdrawals where
  slot : Nat
  blockRoot : Bytes
  index : Nat
  validatorIndex : Nat
  address : Bytes
  amount : Nat
deriving DecidableEq, Repr

/-- A canonical execution payload (`types.ExecutionPayload`);
`withdrawals` is `none` for the bellatrix revision (the Go field stays a
nil slice) and `some` of the produced records for capella. -/
structure ExecutionPayload where
  parentHash : Bytes
  feeRecipient : Bytes
  stateRoot : Bytes
  receiptsRoot : Bytes
  logsBloom : Bytes
  random : Bytes
  blockNumber : Nat
  gasLimit : Nat
  gasUsed : Nat
  timestamp : Nat
  extraData : Bytes
  baseFeePerGas : Nat
  blockHash : Bytes
  transactions : List Transaction
  withdrawals : Option (List Withdrawals)
deriving DecidableEq, Repr

/-- A canonical BLS-to-execution change (`types.BLSToExecutionChange`). -/
structure BLSToExecutionChange where
  validatorindex : Nat
  blsPubkey : Bytes
  address : Bytes
deriving DecidableEq, Repr

/-- A signed canonical BLS-to-execution change. -/
structure SignedBLSToExecutionChange where
  message : BLSToExecutionChange
  signature : Bytes
deriving DecidableEq, Repr

/-- The canonical block (`types.Block`).  `syncAggregate`,
`executionPayload` and `signedBLSToExecutionChange` are `none` where the
Go code leaves the nil zero value. -/
structure Block where
  status : Nat
  canonical : Bool
  proposer : Nat
  blockRoot : Bytes
  slot : Nat
  parentRoot : Bytes
  stateRoot : Bytes
  signature : Bytes
  randaoReveal : Bytes
  graffiti : Bytes
  bodyRoot : Option Bytes
  eth1Data : Eth1Data
  proposerSlashings : List ProposerSlashing
  attesterSlashings : List AttesterSlashing
  attestations : List Attestation
  deposits : List CanonDeposit
  voluntaryExits : List VoluntaryExit
  syncAggregate : Option SyncAggregate
  executionPayload : Option ExecutionPayload
  signedBLSToExecutionChange : Option (List SignedBLSToExecutionChange)
deriving DecidableEq, Repr

/-- Population count of one byte. -/
def bytePopCount (b : Nat) : Nat := ((List.range 8).map (fun i => b / 2 ^ i % 2)).sum

/-- Modelled from the spec: the definition of
`syncCommitteeParticipation` is not under `src/`; the spec defines the
participation fraction as popcount(bits) divided by the bit length
(`Rat` division by zero yields 0 for an empty bitfield). -/
def syncCommitteeParticipation (bits : Bytes) : Rat :=
  ((bits.map bytePopCount).sum : Rat) / ((8 * bits.length : Nat) : Rat)

/-- `bits.Len8`: the minimal number of bits representing a byte (the
position of its most significant set bit, plus one; 0 for 0). -/
def bitsLen8 (b : Nat) : Nat :=
  (List.range 8).foldl (fun acc i => if b / 2 ^ i % 2 = 1 then i + 1 else acc) 0

/-- `bitfield.Bitlist.Len`: the length encoded by the most significant
set bit of the last byte (external go-bitfield dependency of the
attester-resolution loop). -/
def bitlistLen (b : Bytes) : Nat :=
  match b.getLast? with
  | none => 0
  | some last => if bitsLen8 last = 0 then 0 else 8 * (b.length - 1) + bitsLen8 last - 1

/-- `bitfield.Bitlist.BitAt`: test bit `idx`, false out of bounds. -/
def bitAt (b : Bytes) (idx : Nat) : Bool :=
  if idx ≥ bitlistLen b then false
  else Nat.testBit ((b.get? (idx / 8)).getD 0) (idx % 8)

/-- The fields of a decoded geth transaction read by the normalizer,
with the sender-recovery outcome of the configured signer. -/
structure DecodedTx where
  txHash : Bytes
  nonce : Nat
  gasPrice : Bytes
  gas : Nat
  senderRes : Except String Bytes
  recipient : Option Bytes
  value : Bytes
  txData : Bytes
  gasTipCap : Nat
  gasFeeCap : Nat
deriving DecidableEq, Repr

/-- The external collaborators of the parse functions:
`utils.Config.Chain.Config.SlotsPerEpoch`, the epoch assignment lookup
(`pc.GetEpochAssignments`, whose cache behaviour is modelled separately
above), and geth transaction decoding
(`gtypes.Transaction.UnmarshalBinary` combined with
`pc.signer.Sender`). -/
structure ParseEnv where
  slotsPerEpoch : Nat
  getAssignments : Nat → Except String EpochAssignments
  decodeTx : Bytes → Except String DecodedTx

/-- The attester-resolution loop shared verbatim by all four parse
functions: look up the epoch's assignments, then map every set bit of
the aggregation bitfield to the committee member stored under the
composite key (slot, committee index, bit position); a missing key is
logged as an anomaly and falls back to validator index 0 instead of
failing the block. -/
def resolveAttestation (env : ParseEnv) (attestation : WireAttestation) :
    Except String Attestation :=
  match env.getAssignments (attestation.data.slot / env.slotsPerEpoch) with
  | .error e => .error ("error receiving epoch assignment for epoch: " ++ e)
  | .ok assignments =>
    let bits := attestation.aggregationBits
    let attesters := (List.range (bitlistLen bits)).foldl (fun acc i =>
      if bitAt bits i then
        acc ++ [match mapLookup assignments.attestorAssignments
            (formatAttestorAssignmentKey attestation.data.slot
              attestation.data.committeeIndex i) with
          | some validator => validator
          | none => 0]
      else acc) []
    .ok ⟨bits, attestation.data, attestation.signature, attesters⟩

/-- Decoding of one raw payload transaction (prysm.go lines 946-974 /
1157-1185): unmarshal the raw bytes and recover the sender with the
active signing scheme, failing the whole block on either error. -/
def decodeTransaction (env : ParseEnv) (rawTx : Bytes) : Except String Transaction :=
  match env.decodeTx rawTx with
  | .error e => .error ("error parsing tx: " ++ e)
  | .ok decTx =>
    match decTx.senderRes with
    | .error e => .error ("transaction with invalid sender: " ++ e)
    | .ok sender =>
      .ok ⟨rawTx, decTx.txHash, decTx.nonce, decTx.gasPrice, decTx.gas, sender,
        (match decTx.recipient with | some v => v | none => []), decTx.value,
        decTx.txData, decTx.gasTipCap, decTx.gasFeeCap⟩

/-- Field-wise copy of a wire proposer slashing into the canonical form
(the Go code stores the two headers in `types.Block` values). -/
def convertProposerSlashing (ps : WireProposerSlashing) : ProposerSlashing :=
  ⟨ps.header1.header.proposerIndex,
    ⟨ps.header1.header.slot, ps.header1.header.parentRoot, ps.header1.header.stateRoot,
      ps.header1.signature, ps.header1.header.bodyRoot⟩,
    ⟨ps.header2.header.slot, ps.header2.header.parentRoot, ps.header2.header.stateRoot,
      ps.header2.signature, ps.header2.header.bodyRoot⟩⟩

/-- Field-wise copy of a wire attester slashing. -/
def convertAttesterSlashing (sl : WireAttesterSlashing) : AttesterSlashing :=
  ⟨⟨sl.attestation1.data, sl.attestation1.signature, sl.attestation1.attestingIndices⟩,
    ⟨sl.attestation2.data, sl.attestation2.signature, sl.attestation2.attestingIndices⟩⟩

/-- Flattening copy of a wire deposit. -/
def convertDeposit (d : WireDeposit) : CanonDeposit :=
  ⟨d.proof, d.data.publicKey, d.data.withdrawalCredentials, d.data.amount, d.data.signature⟩

/-- Flattening copy of a signed wire voluntary exit. -/
def convertExit (v : WireSignedVoluntaryExit) : VoluntaryExit :=
  ⟨v.exit.epoch, v.exit.validatorIndex, v.signature⟩

/-- Conversion of a wire sync aggregate, computing the participation
fraction from the committee bits. -/
def convertSyncAggregate (sa : WireSyncAggregate) : SyncAggregate :=
  ⟨sa.syncCommitteeBits, syncCommitteeParticipation sa.syncCommitteeBits,
    sa.syncCommitteeSignature⟩

/-- `parsePhase0Block` (prysm.go lines 615-759). -/
def parsePhase0Block (env : ParseEnv) (block : BeaconBlockContainer) : Except String Block :=
  match block.phase0Block with
  | none => .error "failed getting phase0 block"
  | some blk =>
    match listMapE (resolveAttestation env) blk.block.body.attestations with
    | .error e => .error e
    | .ok attestations =>
      .ok ⟨1, block.canonical, blk.block.proposerIndex, block.blockRoot, blk.block.slot,
        blk.block.parentRoot, blk.block.stateRoot, blk.signature,
        blk.block.body.randaoReveal, blk.block.body.graffiti, none, blk.block.body.eth1Data,
        blk.block.body.proposerSlashings.map convertProposerSlashing,
        blk.block.body.attesterSlashings.map convertAttesterSlashing,
        attestations,
        blk.block.body.deposits.map convertDeposit,
        blk.block.body.voluntaryExits.map convertExit,
        none, none, none⟩

/-- `parseAltairBlock` (prysm.go lines 761-914): phase0 plus the sync
aggregate. -/
def parseAltairBlock (env : ParseEnv) (block : BeaconBlockContainer) : Except String Block :=
  match block.altairBlock with
  | none => .error "failed getting altair block"
  | some blk =>
    match listMapE (resolveAttestation env) blk.block.body.attestations with
    | .error e => .error e
    | .ok attestations =>
      .ok ⟨1, block.canonical, blk.block.proposerIndex, block.blockRoot, blk.block.slot,
        blk.block.parentRoot, blk.block.stateRoot, blk.signature,
        blk.block.body.randaoReveal, blk.block.body.graffiti, none, blk.block.body.eth1Data,
        blk.block.body.proposerSlashings.map convertProposerSlashing,
        blk.block.body.attesterSlashings.map convertAttesterSlashing,
        attestations,
        blk.block.body.deposits.map convertDeposit,
        blk.block.body.voluntaryExits.map convertExit,
        blk.block.body.syncAggregate.map convertSyncAggregate, none, none⟩

/-- The execution-payload step of `parseBellatrixBlock` (lines 944-993):
the payload is decoded only when present with a non-zero parent hash
(pre-merge bellatrix blocks carry an empty payload), decoding every
transaction; the canonical payload's withdrawal list stays nil. -/
def parseBellatrixPayload (env : ParseEnv) (payloadOpt : Option WireExecutionPayload) :
    Except String (Option ExecutionPayload) :=
  match payloadOpt with
  | none => .ok none
  | some payload =>
    if payload.parentHash = List.replicate 32 0 then .ok none
    else
      match listMapE (decodeTransaction env) payload.transactions with
      | .error e => .error e
      | .ok txs =>
        .ok (some ⟨payload.parentHash, payload.feeRecipient, payload.stateRoot,
          payload.receiptsRoot, payload.logsBloom, payload.prevRandao, payload.blockNumber,
          payload.gasLimit, payload.gasUsed, payload.timestamp, payload.extraData,
          littleEndianU64 payload.baseFeePerGas, payload.blockHash, txs, none⟩)

/-- `parseBellatrixBlock` (prysm.go lines 916-1120): altair plus the
execution payload; no BLS-to-execution changes exist at this revision. -/
def parseBellatrixBlock (env : ParseEnv) (block : BeaconBlockContainer) :
    Except String Block :=
  match block.bellatrixBlock with
  | none => .error "failed getting bellatrix block"
  | some blk =>
    match parseBellatrixPayload env blk.block.body.executionPayload with
    | .error e => .error e
    | .ok executionPayload =>
      match listMapE (resolveAttestation env) blk.block.body.attestations with
      | .error e => .error e
      | .ok attestations =>
        .ok ⟨1, block.canonical, blk.block.proposerIndex, block.blockRoot, blk.block.slot,
          blk.block.parentRoot, blk.block.stateRoot, blk.signature,
          blk.block.body.randaoReveal, blk.block.body.graffiti, none,
          blk.block.body.eth1Data,
          blk.block.body.proposerSlashings.map convertProposerSlashing,
          blk.block.body.attesterSlashings.map convertAttesterSlashing,
          attestations,
          blk.block.body.deposits.map convertDeposit,
          blk.block.body.voluntaryExits.map convertExit,
          blk.block.body.syncAggregate.map convertSyncAggregate, executionPayload, none⟩

/-- The execution-payload step of `parseCapellaBlock` (lines 1155-1216):
as for bellatrix, but every wire withdrawal becomes a record carrying
the block's slot and block root. -/
def parseCapellaPayload (env : ParseEnv) (slot : Nat) (blockRoot : Bytes)
    (payloadOpt : Option WireExecutionPayloadCapella) :
    Except String (Option ExecutionPayload) :=
  match payloadOpt with
  | none => .ok none
  | some payload =>
    if payload.parentHash = List.replicate 32 0 then .ok none
    else
      match listMapE (decodeTransaction env) payload.transactions with
      | .error e => .error e
      | .ok txs =>
        .ok (some ⟨payload.parentHash, payload.feeRecipient, payload.stateRoot,
          payload.receiptsRoot, payload.logsBloom, payload.prevRandao, payload.blockNumber,
          payload.gasLimit, payload.gasUsed, payload.timestamp, payload.extraData,
          littleEndianU64 payload.baseFeePerGas, payload.blockHash, txs,
          some (payload.withdrawals.map (fun w =>
            ⟨slot, blockRoot, w.index, w.validatorIndex, w.address, w.amount⟩))⟩)

/-- `parseCapellaBlock` (prysm.go lines 1122-1361): bellatrix plus
withdrawals inside the payload and the BLS-to-execution changes. -/
def parseCapellaBlock (env : ParseEnv) (block : BeaconBlockContainer) :
    Except String Block :=
  match block.capellaBlock with
  | none => .error "failed getting capella block"
  | some blk =>
    match parseCapellaPayload env blk.block.slot block.blockRoot
        blk.block.body.executionPayload with
    | .error e => .error e
    | .ok executionPayload =>
      match listMapE (resolveAttestation env) blk.block.body.attestations with
      | .error e => .error e
      | .ok attestations =>
        .ok ⟨1, block.canonical, blk.block.proposerIndex, block.blockRoot, blk.block.slot,
          blk.block.parentRoot, blk.block.stateRoot, blk.signature,
          blk.block.body.randaoReveal, blk.block.body.graffiti, none,
          blk.block.body.eth1Data,
          blk.block.body.proposerSlashings.map convertProposerSlashing,
          blk.block.body.attesterSlashings.map convertAttesterSlashing,
          attestations,
          blk.block.body.deposits.map convertDeposit,
          blk.block.body.voluntaryExits.map convertExit,
          blk.block.body.syncAggregate.map convertSyncAggregate, executionPayload,
          some (blk.block.body.blsToExecutionChanges.map (fun c =>
            ⟨⟨c.message.validatorIndex, c.message.fromBlsPubkey, c.message.toExecutionAddress⟩,
              c.signature⟩))⟩

/-- `parseRpcBlock` (prysm.go lines 595-613): detect which of the four
protocol-version variants is populated and dispatch, failing with a
structural error when none is. -/
def parseRpcBlock (env : ParseEnv) (block : BeaconBlockContainer) : Except String Block :=
  match block.phase0Block with
  | some _ => parsePhase0Block env block
  | none =>
    match block.altairBlock with
    | some _ => parseAltairBlock env block
    | none =>
      match block.bellatrixBlock with
      | some _ => parseBellatrixBlock env block
      | none =>
        match block.capellaBlock with
        | some _ => parseCapellaBlock env block
        | none => .error "block is neither phase0 nor altair nor bellatrix nor capella"

/-- Empty eth1 data used by the concrete test containers. -/
def emptyEth1Data : Eth1Data := ⟨[], 0, []⟩

/-- A parse environment whose oracles are never consulted by the
attestation-free containers below. -/
def c6Env : ParseEnv :=
  ⟨32, fun _ => .ok ⟨[(0, 0)], [((0, 0, 0), 0)]⟩, fun _ => .error "no decode"⟩

/-- A bellatrix body carrying no execution payload (as any pre-merge
bellatrix block does). -/
def c6BodyNoPayload : WireBodyBellatrix := ⟨[], [], emptyEth1Data, [], [], [], [], [], none, none⟩

/-- A signed bellatrix block with no execution payload. -/
def c6BlkNoPayload : WireSignedBlockBellatrix := ⟨⟨9, 2, [1], [2], c6BodyNoPayload⟩, [3]⟩

/-- A wire container populating only its bellatrix variant, with no
execution payload inside. -/
def c6CntrNoPayload : BeaconBlockContainer := ⟨[4], true, none, none, some c6BlkNoPayload, none⟩

/-- The canonical block `parseRpcBlock` produces for `c6CntrNoPayload`. -/
def c6ResultNoPayload : Block :=
  ⟨1, true, 2, [4], 9, [1], [2], [3], [], [], none, emptyEth1Data,
    [], [], [], [], [], none, none, none⟩

/-- C6 counterexample: a wire container with only its bellatrix variant
populated whose normalization succeeds with a nil execution payload —
the claim that every only-bellatrix container yields a non-nil execution
payload fails when the wire payload is absent (the code also keeps the
payload nil when the payload's parent hash is all-zero). -/
theorem parseRpcBlock_bellatrix_counterexample :
    c6CntrNoPayload.phase0Block = none ∧ c6CntrNoPayload.altairBlock = none
    ∧ c6CntrNoPayload.bellatrixBlock = some c6BlkNoPayload
    ∧ c6CntrNoPayload.capellaBlock = none
    ∧ parseRpcBlock c6Env c6CntrNoPayload = .ok c6ResultNoPayload
    ∧ c6ResultNoPayload.executionPayload = none :=
  ⟨rfl, rfl, rfl, rfl, rfl, rfl⟩

/-- A successfully parsed bellatrix payload is non-nil exactly when the
wire payload is present with a non-zero parent hash. -/
theorem parseBellatrixPayload_some_iff (env : ParseEnv)
    (popt : Option WireExecutionPayload) (ep : Option ExecutionPayload)
    (h : parseBellatrixPayload env popt = .ok ep) :
    ep ≠ none ↔ ∃ payload, popt = some payload ∧ payload.parentHash ≠ List.replicate 32 0 := by
  cases popt with
  | none =>
    simp only [parseBellatrixPayload, Except.ok.injEq] at h
    subst h
    simp
  | some payload =>
    by_cases hz : payload.parentHash = List.replicate 32 0
    · rw [parseBellatrixPayload, if_pos hz] at h
      simp only [Except.ok.injEq] at h
      subst h
      simp only [ne_eq, not_true_eq_false, false_iff, not_exists]
      intro p hp
      simp only [Option.some.injEq] at hp
      exact hp.2 (hp.1 ▸ hz)
    · rw [parseBellatrixPayload, if_neg hz] at h
      cases ht : listMapE (decodeTransaction env) payload.transactions with
      | error e => rw [ht] at h; exact absurd h (by simp)
      | ok txs =>
        rw [ht] at h
        simp only [Except.ok.injEq] at h
        subst h
        simp only [ne_eq, reduceCtorEq, not_false_eq_true, true_iff]
        exact ⟨payload, rfl, hz⟩

/-- Every withdrawal of a successfully parsed capella payload carries
the slot and block root it was parsed under. -/
theorem parseCapellaPayload_withdrawals (env : ParseEnv) (slot : Nat) (blockRoot : Bytes)
    (popt : Option WireExecutionPayloadCapella) (ep : Option ExecutionPayload)
    (h : parseCapellaPayload env slot blockRoot popt = .ok ep) :
    ∀ p, ep = some p → ∀ ws, p.withdrawals = some ws →
      ∀ w ∈ ws, w.slot = slot ∧ w.blockRoot = blockRoot := by
  cases popt with
  | none =>
    simp only [parseCapellaPayload, Except.ok.injEq] at h
    subst h
    intro p hp
    exact absurd hp (by simp)
  | some payload =>
    by_cases hz : payload.parentHash = List.replicate 32 0
    · rw [parseCapellaPayload, if_pos hz] at h
      simp only [Except.ok.injEq] at h
      subst h
      intro p hp
      exact absurd hp (by simp)
    · rw [parseCapellaPayload, if_neg hz] at h
      cases ht : listMapE (decodeTransaction env) payload.transactions with
      | error e => rw [ht] at h; exact absurd h (by simp)
      | ok txs =>
        rw [ht] at h
        simp only [Except.ok.injEq] at h
        subst h
        intro p hp
        simp only [Option.some.injEq] at hp
        subst hp
        intro ws hws
        simp only [Option.some.injEq] at hws
        subst hws
        intro w hw
        obtain ⟨w0, hw0, rfl⟩ := List.mem_map.mp hw
        exact ⟨rfl, rfl⟩

/-- C6 (amended): when only the bellatrix variant is populated and
normalization succeeds, the canonical block has a nil set of
BLS-to-execution changes and a non-nil execution payload exactly when
the wire payload is present with a non-zero parent hash; a capella
container's withdrawals all carry the block's slot and block root; a
container populating none of the four variants fails with the
structural dispatch error. -/
theorem parseRpcBlock_variants (env : ParseEnv) (cntr : BeaconBlockContainer) :
    (∀ blk b, cntr.phase0Block = none → cntr.altairBlock = none →
      cntr.bellatrixBlock = some blk → parseRpcBlock env cntr = .ok b →
      b.signedBLSToExecutionChange = none
      ∧ (b.executionPayload ≠ none ↔ ∃ payload,
          blk.block.body.executionPayload = some payload
          ∧ payload.parentHash ≠ List.replicate 32 0))
    ∧ (∀ blk b p, cntr.phase0Block = none → cntr.altairBlock = none →
        cntr.bellatrixBlock = none → cntr.capellaBlock = some blk →
        parseRpcBlock env cntr = .ok b → b.executionPayload = some p →
        ∀ ws, p.withdrawals = some ws → ∀ w ∈ ws, w.slot = blk.block.slot
          ∧ w.blockRoot = cntr.blockRoot)
    ∧ (cntr.phase0Block = none → cntr.altairBlock = none → cntr.bellatrixBlock = none →
        cntr.capellaBlock = none →
        parseRpcBlock env cntr = .error
          "block is neither phase0 nor altair nor bellatrix nor capella") := by
  refine ⟨?_, ?_, ?_⟩
  · intro blk b h0 h1 h2 hok
    simp only [parseRpcBlock, parseBellatrixBlock, h0, h1, h2] at hok
    cases hp : parseBellatrixPayload env blk.block.body.executionPayload with
    | error e => simp [hp] at hok
    | ok ep =>
      cases ha : listMapE (resolveAttestation env) blk.block.body.attestations with
      | error e => simp [hp, ha] at hok
      | ok atts =>
        simp only [hp, ha, Except.ok.injEq] at hok
        subst hok
        exact ⟨rfl, parseBellatrixPayload_some_iff env _ ep hp⟩
  · intro blk b p h0 h1 h2 h3 hok hep
    simp only [parseRpcBlock, parseCapellaBlock, h0, h1, h2, h3] at hok
    cases hp : parseCapellaPayload env blk.block.slot cntr.blockRoot
        blk.block.body.executionPayload with
    | error e => simp [hp] at hok
    | ok ep =>
      cases ha : listMapE (resolveAttestation env) blk.block.body.attestations with
      | error e => simp [hp, ha] at hok
      | ok atts =>
        simp only [hp, ha, Except.ok.injEq] at hok
        subst hok
        exact parseCapellaPayload_withdrawals env _ _ _ ep hp p hep
  · intro h0 h1 h2 h3
    simp only [parseRpcBlock, h0, h1, h2, h3]

/-- A wire bellatrix payload with a non-zero parent hash and no
transactions. -/
def c6Payload : WireExecutionPayload :=
  ⟨List.replicate 32 1, [1], [2], [3], [4], [5], 77, 10, 5, 1000, [6],
    [1, 0, 0, 0, 0, 0, 0, 0], [7], []⟩

/-- A bellatrix body carrying `c6Payload`. -/
def c6BodyWithPayload : WireBodyBellatrix :=
  ⟨[], [], emptyEth1Data, [], [], [], [], [], none, some c6Payload⟩

/-- A signed bellatrix block carrying `c6Payload`. -/
def c6BlkWithPayload : WireSignedBlockBellatrix := ⟨⟨9, 2, [1], [2], c6BodyWithPayload⟩, [3]⟩

/-- A wire container populating only its bellatrix variant, payload
included. -/
def c6CntrWithPayload : BeaconBlockContainer :=
  ⟨[4], true, none, none, some c6BlkWithPayload, none⟩

/-- The canonical payload parsed from `c6Payload` (base fee read
little-endian). -/
def c6ParsedPayload : ExecutionPayload :=
  ⟨List.replicate 32 1, [1], [2], [3], [4], [5], 77, 10, 5, 1000, [6], 1, [7], [], none⟩

/-- The canonical block parsed from `c6CntrWithPayload`. -/
def c6ResultWithPayload : Block :=
  ⟨1, true, 2, [4], 9, [1], [2], [3], [], [], none, emptyEth1Data,
    [], [], [], [], [], none, some c6ParsedPayload, none⟩

/-- Witness for C6 on a bellatrix container whose payload is present
with a non-zero parent hash. -/
theorem parseRpcBlock_variants_witness :
    c6CntrWithPayload.phase0Block = none ∧ c6CntrWithPayload.altairBlock = none
    ∧ c6CntrWithPayload.bellatrixBlock = some c6BlkWithPayload
    ∧ parseRpcBlock c6Env c6CntrWithPayload = .ok c6ResultWithPayload
    ∧ (c6ResultWithPayload.signedBLSToExecutionChange = none
        ∧ (c6ResultWithPayload.executionPayload ≠ none ↔ ∃ payload,
            c6BlkWithPayload.block.body.executionPayload = some payload
            ∧ payload.parentHash ≠ List.replicate 32 0)) :=
  ⟨rfl, rfl, rfl, by decide,
    (parseRpcBlock_variants c6Env c6CntrWithPayload).1 c6BlkWithPayload
      c6ResultWithPayload rfl rfl rfl (by decide)⟩

/-- A fold collecting `f i` for every `i` passing `p` equals the
filtered map. -/
theorem foldl_append_filter_map (l : List Nat) (p : Nat → Bool) (f : Nat → Nat)
    (acc0 : List Nat) :
    l.foldl (fun acc i => if p i then acc ++ [f i] else acc) acc0
      = acc0 ++ (l.filter p).map f := by
  induction l generalizing acc0 with
  | nil => simp
  | cons x xs ih =>
    by_cases hx : p x
    · simp only [List.foldl_cons, hx, if_true, List.filter_cons_of_pos hx, List.map_cons]
      rw [ih]
      simp
    · simp only [List.foldl_cons, hx, if_false, Bool.false_eq_true,
        List.filter_cons_of_neg (by simpa using hx)]
      exact ih acc0

/-- `listMapE` of an everywhere-successful function is the plain map. -/
theorem listMapE_map {α β : Type} (f : α → Except String β) (g : α → β) (l : List α)
    (h : ∀ a ∈ l, f a = .ok (g a)) : listMapE f l = .ok (l.map g) := by
  induction l with
  | nil => rfl
  | cons a rest ih =>
    simp only [listMapE, h a (List.mem_cons_self _ _),
      ih (fun x hx => h x (List.mem_cons_of_mem _ hx)), List.map_cons]

/-- The attester list a resolved attestation carries, spelled as a
filter-and-map over the set bits of the aggregation bitfield, with the
missing-key fallback to validator index 0. -/
def expectedAttesters (asg : EpochAssignments) (a : WireAttestation) : List Nat :=
  ((List.range (bitlistLen a.aggregationBits)).filter
    (fun i => bitAt a.aggregationBits i)).map
    (fun i => (mapLookup asg.attestorAssignments
      (a.data.slot, a.data.committeeIndex, i)).getD 0)

/-- The canonical attestation a successful resolution produces. -/
def expectedAttestation (env : ParseEnv) (asgF : Nat → EpochAssignments)
    (a : WireAttestation) : Attestation :=
  ⟨a.aggregationBits, a.data, a.signature,
    expectedAttesters (asgF (a.data.slot / env.slotsPerEpoch)) a⟩

/-- Attester resolution never fails when the epoch assignments resolve:
missing composite keys fall back to validator index 0. -/
theorem resolveAttestation_ok (env : ParseEnv) (asgF : Nat → EpochAssignments)
    (hA : ∀ e, env.getAssignments e = .ok (asgF e)) (a : WireAttestation) :
    resolveAttestation env a = .ok (expectedAttestation env asgF a) := by
  have hfold := foldl_append_filter_map (List.range (bitlistLen a.aggregationBits))
    (fun i => bitAt a.aggregationBits i)
    (fun i => match mapLookup (asgF (a.data.slot / env.slotsPerEpoch)).attestorAssignments
        (a.data.slot, a.data.committeeIndex, i) with
      | some validator => validator
      | none => 0) []
  simp only [resolveAttestation, hA, hfold, List.nil_append, expectedAttestation,
    expectedAttesters, formatAttestorAssignmentKey, Except.ok.injEq, Attestation.mk.injEq,
    true_and]
  apply List.map_congr_left
  intro i hi
  cases mapLookup (asgF (a.data.slot / env.slotsPerEpoch)).attestorAssignments
      (a.data.slot, a.data.committeeIndex, i) <;> rfl

/-- C7: with the epoch assignments resolving for every epoch, block
normalization succeeds and builds every attestation's attester list by
mapping each set bit `i` of the aggregation bitfield to the validator
stored under the composite key (slot, committee index, `i`), defaulting
to validator index 0 when the key is absent — for phase0 blocks, and for
capella blocks without an execution payload. -/
theorem parseBlocks_attester_default (env : ParseEnv) (asgF : Nat → EpochAssignments)
    (hA : ∀ e, env.getAssignments e = .ok (asgF e)) :
    (∀ cntr blk, cntr.phase0Block = some blk →
      ∃ b, parsePhase0Block env cntr = .ok b
        ∧ b.attestations = blk.block.body.attestations.map (expectedAttestation env asgF))
    ∧ (∀ cntr blk, cntr.capellaBlock = some blk →
        blk.block.body.executionPayload = none →
        ∃ b, parseCapellaBlock env cntr = .ok b
          ∧ b.attestations = blk.block.body.attestations.map (expectedAttestation env asgF)) := by
  constructor
  · intro cntr blk hblk
    have hm := listMapE_map (resolveAttestation env) (expectedAttestation env asgF)
      blk.block.body.attestations (fun a _ => resolveAttestation_ok env asgF hA a)
    exact ⟨_, by simp only [parsePhase0Block, hblk, hm]; rfl, rfl⟩
  · intro cntr blk hblk hpay
    have hm := listMapE_map (resolveAttestation env) (expectedAttestation env asgF)
      blk.block.body.attestations (fun a _ => resolveAttestation_ok env asgF hA a)
    exact ⟨_, by simp only [parseCapellaBlock, parseCapellaPayload, hblk, hpay, hm]; rfl, rfl⟩

/-- Epoch assignments carrying one proposer and exactly the composite
key (slot 3, committee 9, member 0). -/
def c7Asg : EpochAssignments := ⟨[(1, 7)], [((3, 9, 0), 42)]⟩

/-- A parse environment resolving every epoch to `c7Asg`. -/
def c7Env : ParseEnv := ⟨32, fun _ => .ok c7Asg, fun _ => .error "no decode"⟩

/-- An attestation whose only set bit resolves to validator 42. -/
def c7Att1 : WireAttestation := ⟨[5], ⟨3, 9, [1], ⟨0, []⟩, ⟨1, []⟩⟩, [2]⟩

/-- An attestation at slot 4 whose composite key is absent, so its set
bit falls back to validator index 0. -/
def c7Att2 : WireAttestation := ⟨[5], ⟨4, 9, [1], ⟨0, []⟩, ⟨1, []⟩⟩, [2]⟩

/-- A phase0 body with the two attestations above. -/
def c7Body : WireBodyPhase0 := ⟨[], [], emptyEth1Data, [], [], [c7Att1, c7Att2], [], []⟩

/-- A signed phase0 block with the two attestations. -/
def c7Blk : WireSignedBlockPhase0 := ⟨⟨3, 1, [1], [2], c7Body⟩, [3]⟩

/-- A wire container populating only the phase0 variant. -/
def c7Cntr : BeaconBlockContainer := ⟨[9], true, some c7Blk, none, none, none⟩

/-- Witness for C7: the unresolvable attestation defaults to validator
index 0 while the resolvable one maps to 42, and parsing succeeds. -/
theorem parseBlocks_attester_default_witness :
    c7Cntr.phase0Block = some c7Blk
    ∧ (∀ e, c7Env.getAssignments e = .ok ((fun _ => c7Asg) e))
    ∧ (∃ b, parsePhase0Block c7Env c7Cntr = .ok b
        ∧ b.attestations = c7Blk.block.body.attestations.map
            (expectedAttestation c7Env (fun _ => c7Asg)))
    ∧ (expectedAttestation c7Env (fun _ => c7Asg) c7Att1).attesters = [42]
    ∧ (expectedAttestation c7Env (fun _ => c7Asg) c7Att2).attesters = [0] :=
  ⟨rfl, fun _ => rfl,
    (parseBlocks_attester_default c7Env (fun _ => c7Asg) (fun _ => rfl)).1 c7Cntr c7Blk rfl,
    by decide, by decide⟩

end AgoraScan
